import Mathlib

set_option maxHeartbeats 4000000

/-!
Verification development for the skill-icons repository.

The repository has two executable entry points:
  * `src/scripts/build.js` — the icon build pipeline (icon loader, per-framework
    component transforms, module-format rewrites, index/type-declaration emission);
  * `src/unnamed/part_000` — the release workflow (version selection and rewrite,
    changelog generation, commit/tag/push, GitHub release, package publishing,
    rollback on failure).

Both are embedded shallowly below.  Pure string transformations (the regex
substitutions of `build.js`) are compiled by hand into executable scanners whose
structure mirrors the corresponding JavaScript regular expressions, including
greedy/lazy backtracking behaviour.  The effectful release workflow is embedded
as a deterministic interpreter parameterised by an environment that supplies the
results of prompts, shell commands and network calls; executed external commands
are recorded in an effects trace.

External libraries (camelcase, semver, svgr/swc, @vue/compiler-dom,
conventional-changelog, enquirer, octokit) are out of scope per the
specification; where a claim depends on one, the corresponding definition is
modelled from the specification's words and marked as such in its doc comment.
-/

/-! ## Generic list/character helpers -/

/-- The common ASCII characters matched by JavaScript's regex class `\s`. -/
def isJsWs (c : Char) : Bool :=
  c = ' ' || c = '\t' || c = '\n' || c = '\r' || c.toNat = 11 || c.toNat = 12

/-- `startsWithL pat l` holds when `pat` is a prefix of `l`. -/
def startsWithL : List Char → List Char → Bool
  | [], _ => true
  | _ :: _, [] => false
  | p :: ps, c :: cs => p = c && startsWithL ps cs

/-- Longest prefix not containing the character `stop`. -/
def takeWhileNe (stop : Char) (l : List Char) : List Char :=
  l.takeWhile (fun c => c ≠ stop)

/-- `containsSeq pat l` holds when `pat` occurs as a contiguous substring of `l`. -/
def containsSeq (pat : List Char) : List Char → Bool
  | [] => pat.isEmpty
  | c :: cs => startsWithL pat (c :: cs) || containsSeq pat cs

/-- Drop the longest JavaScript-whitespace prefix. -/
def skipJsWs (l : List Char) : List Char :=
  l.dropWhile isJsWs

/-! ## Icon loader (`getIcons` in `src/scripts/build.js`)

```js
componentName: camelcase(file.replace(/\.svg$/, ''), { pascalCase: true })
```
-/

/-- `file.replace(/\.svg$/, '')`: the regex is anchored at the end of the string,
so it removes one trailing `.svg` and leaves every other name unchanged. -/
def stripSvgExtL (l : List Char) : List Char :=
  if l.reverse.take 4 = ['g', 'v', 's', '.'] then (l.reverse.drop 4).reverse else l

/-- Maximal alphanumeric runs of a character list, in order; non-alphanumeric
characters act as separators and are dropped. -/
def pascalSplit : List Char → List (List Char)
  | [] => []
  | c :: cs =>
    let rest := pascalSplit cs
    if c.isAlphanum then
      match cs with
      | [] => [[c]]
      | d :: _ =>
        if d.isAlphanum then
          match rest with
          | [] => [[c]]
          | w :: ws => (c :: w) :: ws
        else [c] :: rest
    else rest

/-- Capitalise the first character of a word. -/
def capFirst : List Char → List Char
  | [] => []
  | c :: cs => c.toUpper :: cs

/-- Modelled from the spec: the external `camelcase` library called with
`pascalCase: true` — "convert to PascalCase (words are split on non-alphanumeric
separators; each word's first letter is capitalized, separators removed)".
The spec assigns no treatment to the remaining letters of a word, so they are
kept as they are. -/
def pascalCase (s : String) : String :=
  ⟨(pascalSplit s.data).foldr (fun w acc => capFirst w ++ acc) []⟩

/-- Component-name derivation of the icon loader (`getIcons`,
src/scripts/build.js line 120):
`camelcase(file.replace(/\.svg$/, ''), { pascalCase: true })`. -/
def componentName (file : String) : String :=
  pascalCase ⟨stripSvgExtL file.data⟩

/-- Everything after the last dot of a file name, dot included, removed;
a name with no dot is unchanged. -/
def stripAnyExtL (l : List Char) : List Char :=
  let r := l.reverse
  let ext := takeWhileNe '.' r
  if ext.length = r.length then l else (r.drop (ext.length + 1)).reverse

/-- The derivation rule exactly as claim C2 words it ("stripping the file
extension and converting the remainder to PascalCase"): strip the extension —
whatever it is — then PascalCase.  Stated only to be compared with
`componentName`, which is the code's rule. -/
def componentNameSpec (file : String) : String :=
  pascalCase ⟨stripAnyExtL file.data⟩

/-! ## Vue pre-compilation size rewrite (`transforms.vue`, src/scripts/build.js)

```js
svg
  .replace(/<svg([^>]*)\s+width="[^"]*"([^>]*)>/g, '<svg$1 width="1em"$2>')
  .replace(/<svg([^>]*)\s+height="[^"]*"([^>]*)>/g, '<svg$1 height="1em"$2>')
```

The two substitutions differ only in the attribute name, so the scanner is
parameterised by it.  `sizeTail` matches the part of the pattern after the
first capture group (`\s+attr="[^"]*"([^>]*)>`); all its quantifiers are
forced (the character after each run cannot extend the run), so it is
deterministic.  `sizeG1Scan` implements the greedy backtracking of the first
`([^>]*)` group: the longest split whose tail matches wins. -/

/-- Match `\s+attr="[^"]*"([^>]*)>` at the head of `m`; returns the second
capture group and the remainder after the closing `>`. -/
def sizeTail (attr : List Char) (m : List Char) : Option (List Char × List Char) :=
  let ws := m.takeWhile isJsWs
  if ws.isEmpty then none else
  let m1 := m.drop ws.length
  if startsWithL (attr ++ ['=', '"']) m1 then
    let m2 := m1.drop (attr.length + 2)
    let v := takeWhileNe '"' m2
    match m2.drop v.length with
    | '"' :: m4 =>
      let g2 := takeWhileNe '>' m4
      match m4.drop g2.length with
      | '>' :: rem => some (g2, rem)
      | _ => none
    | _ => none
  else none

/-- Greedy search for the first capture group `([^>]*)`: `acc` holds the
(reversed) group-1 candidate read so far; longer candidates are preferred,
mirroring greedy matching with backtracking.  Returns (group 1, group 2,
remainder after the match). -/
def sizeG1Scan (attr : List Char) (acc : List Char) (m : List Char) :
    Option (List Char × List Char × List Char) :=
  let here := (sizeTail attr m).map (fun p => (acc.reverse, p.1, p.2))
  match m with
  | [] => here
  | c :: cs =>
    if c = '>' then here
    else
      match sizeG1Scan attr (c :: acc) cs with
      | some r => some r
      | none => here

/-- One global-replace pass for `/<svg([^>]*)\s+attr="[^"]*"([^>]*)>/g` with the
replacement `'<svg$1 attr="1em"$2>'`.  The fuel argument only bounds the
recursion; it is instantiated with the length of the input, and every step
consumes at least one character. -/
def replaceSizeAux (attr : List Char) : Nat → List Char → List Char
  | 0, l => l
  | _ + 1, [] => []
  | fuel + 1, c :: cs =>
    if startsWithL ['<', 's', 'v', 'g'] (c :: cs) then
      match sizeG1Scan attr [] ((c :: cs).drop 4) with
      | some (g1, g2, rem) =>
        ['<', 's', 'v', 'g'] ++ g1 ++ (' ' :: attr) ++ ['=', '"', '1', 'e', 'm', '"'] ++
          g2 ++ '>' :: replaceSizeAux attr fuel rem
      | none => c :: replaceSizeAux attr fuel cs
    else c :: replaceSizeAux attr fuel cs

/-- One `.replace(/<svg([^>]*)\s+attr="[^"]*"([^>]*)>/g, '<svg$1 attr="1em"$2>')`. -/
def replaceSizeAttr (attr : String) (s : String) : String :=
  ⟨replaceSizeAux attr.data s.data.length s.data⟩

/-- The vue pipeline's pre-compilation rewrite: force `width` then `height`
to `"1em"` (src/scripts/build.js lines 46–47). -/
def vueSvgSizeRewrite (svg : String) : String :=
  replaceSizeAttr "height" (replaceSizeAttr "width" svg)

/-! ## React classic-require post-pass (`transforms.react`, src/scripts/build.js)

```js
code
  .replace(/Object\.defineProperty\(exports,\s*["']default["'],\s*\{[\s\S]*?\}\);?\s*/g, '')
  .replace(/const\s+_default\s*=\s*([^;]+);?\s*$/m, 'module.exports = $1;');
```
-/

/-- The literal prefix of the first pattern. -/
def dpTrigger : List Char := "Object.defineProperty(exports,".data

/-- `["']`: either quote character (39 is the ASCII code of the single quote). -/
def isQuoteCh (c : Char) : Bool := c = '"' || c.toNat = 39

/-- Match `Object\.defineProperty\(exports,\s*["']default["'],\s*\{` at the head
of `m`; returns the characters after the opening brace.  The `\s*` runs are
forced because the following pattern characters are not whitespace. -/
def dpHead (m : List Char) : Option (List Char) :=
  if startsWithL dpTrigger m then
    match skipJsWs (m.drop 30) with
    | q1 :: m2 =>
      if isQuoteCh q1 && startsWithL "default".data m2 then
        match m2.drop 7 with
        | q2 :: ',' :: m4 =>
          if isQuoteCh q2 then
            match skipJsWs m4 with
            | '\x7b' :: m5 => some m5
            | _ => none
          else none
        | _ => none
      else none
    | _ => none
  else none

/-- Match the lazy tail `[\s\S]*?\}\);?\s*`: scan for the first `})`, then an
optional `;`, then greedily consume trailing whitespace.  Returns the remainder
after the whole match. -/
def dpTail : List Char → Option (List Char)
  | '\x7d' :: ')' :: rest =>
    match rest with
    | ';' :: rest2 => some (skipJsWs rest2)
    | _ => some (skipJsWs rest)
  | _ :: rest => dpTail rest
  | [] => none

/-- Full match of the first pattern at the head of `m`. -/
def dpMatchAt (m : List Char) : Option (List Char) :=
  match dpHead m with
  | some m5 => dpTail m5
  | none => none

/-- Global replace of the first pattern with the empty string.  Fuel bounds the
recursion and is instantiated with the input length (a match consumes at least
one character). -/
def replaceDpAux : Nat → List Char → List Char
  | 0, l => l
  | _ + 1, [] => []
  | fuel + 1, c :: cs =>
    match dpMatchAt (c :: cs) with
    | some rem => replaceDpAux fuel rem
    | none => c :: replaceDpAux fuel cs

/-- `.replace(/Object\.defineProperty\(exports,\s*["']default["'],\s*\{[\s\S]*?\}\);?\s*/g, '')`. -/
def replaceDpAll (l : List Char) : List Char := replaceDpAux l.length l

/-- Largest index of a newline in the list, if any. -/
def lastNlIdx : List Char → Option Nat
  | [] => none
  | c :: cs =>
    match lastNlIdx cs with
    | some k => some (k + 1)
    | none => if c = '\n' then some 0 else none

/-- `\s*$` with the multiline `$` of `/m`: greedily consume whitespace, stopping
at the end of the input or just before a newline; returns the unconsumed
remainder on success. -/
def wsDollar (m : List Char) : Option (List Char) :=
  let r := m.takeWhile isJsWs
  if (m.drop r.length).isEmpty then some []
  else
    match lastNlIdx r with
    | some k => some (m.drop k)
    | none => none

/-- `;?\s*$` (the `;?` is greedy; declining an available `;` can never succeed
because a `;` is neither whitespace, a newline, nor the end of the input). -/
def semiWsEnd : List Char → Option (List Char)
  | ';' :: m1 => wsDollar m1
  | m => wsDollar m

/-- Greedy search for `([^;]+);?\s*$`: `grev` is the reversed group candidate,
initially the full run of non-`;` characters; when the tail fails to match, the
last group character is handed back.  Returns (group, remainder). -/
def searchGroupRev : List Char → List Char → Option (List Char × List Char)
  | grev, rest =>
    match semiWsEnd rest with
    | some rem => if grev.isEmpty then none else some (grev.reverse, rem)
    | none =>
      match grev with
      | [] => none
      | c :: grev2 => searchGroupRev grev2 (c :: rest)

/-- Backtracking for the `\s*` run before the group: if no group split works,
hand whitespace characters back to the group (they are not `;`), mirroring the
regex engine's backtracking between `\s*` and `([^;]+)`. -/
def eqWsGroupSearch : List Char → List Char → Option (List Char × List Char)
  | wsrev, m =>
    let run := takeWhileNe ';' m
    match searchGroupRev run.reverse (m.drop run.length) with
    | some r => some r
    | none =>
      match wsrev with
      | [] => none
      | c :: ws2 => eqWsGroupSearch ws2 (c :: m)

/-- Match `const\s+_default\s*=\s*([^;]+);?\s*$` at the head of `m`;
returns (capture group, remainder after the match). -/
def constDefaultMatchAt (m : List Char) : Option (List Char × List Char) :=
  if startsWithL "const".data m then
    let m1 := m.drop 5
    let ws1 := m1.takeWhile isJsWs
    if ws1.isEmpty then none else
    let m2 := m1.drop ws1.length
    if startsWithL "_default".data m2 then
      match skipJsWs (m2.drop 8) with
      | '=' :: m4 =>
        let ws2 := m4.takeWhile isJsWs
        eqWsGroupSearch ws2.reverse (m4.drop ws2.length)
      | _ => none
    else none
  else none

/-- `.replace(/const\s+_default\s*=\s*([^;]+);?\s*$/m, 'module.exports = $1;')`:
no `/g` flag, so only the leftmost match is replaced. -/
def replaceConstDefault : List Char → List Char
  | [] => []
  | c :: cs =>
    match constDefaultMatchAt (c :: cs) with
    | some (g, rem) => "module.exports = ".data ++ g ++ ';' :: rem
    | none => c :: replaceConstDefault cs

/-- The classic-require post-pass of the react pipeline
(src/scripts/build.js lines 33–35): strip the generated default-export
property definitions, then rewrite the trailing `const _default = …`
assignment into a `module.exports` assignment. -/
def reactCjsPost (code : String) : String :=
  ⟨replaceConstDefault (replaceDpAll code.data)⟩

/-! ## Vue module-format rewrites (`transforms.vue`, src/scripts/build.js)

The esm branch rewrites the first occurrence of the literal `export function`
into `export default function`; the cjs branch decomposes the compiled import
statement into a classic-require destructuring assignment and rewrites the
render export.  JavaScript `String.replace` with a string pattern replaces the
first occurrence only. -/

/-- `String.replace` with a plain string pattern: first occurrence only. -/
def replaceFirstLit (pat rep : List Char) : List Char → List Char
  | [] => []
  | c :: cs =>
    if startsWithL pat (c :: cs) then rep ++ (c :: cs).drop pat.length
    else c :: replaceFirstLit pat rep cs

/-- JavaScript `String.trim` on a character list. -/
def trimL (l : List Char) : List Char :=
  (skipJsWs (skipJsWs l).reverse).reverse

/-- Match `\s+as\s+` at the head of `m`; both runs are forced because the
letter a is not whitespace and the pattern ends greedily. -/
def asMatchAt (m : List Char) : Option (List Char) :=
  let ws1 := m.takeWhile isJsWs
  if ws1.isEmpty then none else
  let m1 := m.drop ws1.length
  if startsWithL ['a', 's'] m1 then
    let m2 := m1.drop 2
    let ws2 := m2.takeWhile isJsWs
    if ws2.isEmpty then none else some (m2.drop ws2.length)
  else none

/-- `i.replace(/\s+as\s+/, ": ")`: first occurrence only. -/
def replaceAsFirst : List Char → List Char
  | [] => []
  | c :: cs =>
    match asMatchAt (c :: cs) with
    | some rem => ':' :: ' ' :: rem
    | none => c :: replaceAsFirst cs

/-- Join with a separator, mirroring `Array.join`. -/
def joinSepL (sep : List Char) : List (List Char) → List Char
  | [] => []
  | [x] => x
  | x :: xs => x ++ sep ++ joinSepL sep xs

/-- The lazy group `(.*?)` followed by the back-referenced quote `\2`: the
shortest run of non-newline characters ending at the quote. -/
def lazyToQuote (q : Char) : List Char → Option (List Char × List Char)
  | [] => none
  | c :: cs =>
    if c = q then some ([], cs)
    else if c = '\n' || c = '\r' then none
    else (lazyToQuote q cs).map (fun p => (c :: p.1, p.2))

/-- Match `import\s+\{\s*([^}]+)\s*\}\s+from\s+([\x27"])(.*?)\2` at the head of
`m`; returns (imports group, module group, remainder).  The `\s*` after the
opening brace interacts with the greedy `([^}]+)` group: the whitespace run is
consumed by `\s*` except when the group would otherwise be empty, in which case
backtracking hands characters back — hence the `min` below. -/
def importMatchAt (m : List Char) : Option (List Char × List Char × List Char) :=
  if startsWithL "import".data m then
    let m1 := m.drop 6
    let ws1 := m1.takeWhile isJsWs
    if ws1.isEmpty then none else
    match m1.drop ws1.length with
    | '\x7b' :: m2 =>
      let run := takeWhileNe '\x7d' m2
      if run.isEmpty then none else
      let k := min (m2.takeWhile isJsWs).length (run.length - 1)
      let g1 := run.drop k
      match m2.drop run.length with
      | '\x7d' :: m3 =>
        let ws2 := m3.takeWhile isJsWs
        if ws2.isEmpty then none else
        let m4 := m3.drop ws2.length
        if startsWithL "from".data m4 then
          let m5 := m4.drop 4
          let ws3 := m5.takeWhile isJsWs
          if ws3.isEmpty then none else
          match m5.drop ws3.length with
          | q :: m6 =>
            if isQuoteCh q then
              match lazyToQuote q m6 with
              | some (g3, rem) => some (g1, g3, rem)
              | none => none
            else none
          | _ => none
        else none
      | _ => none
    | _ => none
  else none

/-- The function replacer of the cjs import rewrite:
`const { newImports } = require("mod")` where `newImports` is the imports group
split on commas, each piece trimmed and its first ` as ` rewritten to `: `. -/
def importReplacement (g1 g3 : List Char) : List Char :=
  let newImports := joinSepL ", ".data ((g1.splitOn ',').map (fun i => replaceAsFirst (trimL i)))
  "const \x7b ".data ++ newImports ++ " \x7d = require(\"".data ++ g3 ++ "\")".data

/-- First-occurrence replace of the compiled import statement
(src/scripts/build.js lines 53–63). -/
def vueImportRewrite : List Char → List Char
  | [] => []
  | c :: cs =>
    match importMatchAt (c :: cs) with
    | some (g1, g3, rem) => importReplacement g1 g3 ++ rem
    | none => c :: vueImportRewrite cs

/-- The cjs branch of `transforms.vue`: rewrite the import, then rewrite the
render export into a classic-require module assignment. -/
def vueCjsPost (code : String) : String :=
  ⟨replaceFirstLit "export function render".data "module.exports = function render".data
    (vueImportRewrite code.data)⟩

/-- The esm branch of `transforms.vue`. -/
def vueEsmPost (code : String) : String :=
  ⟨replaceFirstLit "export function".data "export default function".data code.data⟩

/-! ## Build pipeline (`src/scripts/build.js`)

The pipeline is embedded with its effects made explicit: an environment
supplies the assets listing, file contents, the outputs of the external
compilers (svgr+swc for react, @vue/compiler-dom for vue) and per-path write
failures.  The `flatMap` callback of `build` (lines 77–101) is `async` and
returns its two per-component `ensureWrite` promises without awaiting them;
`Promise.all` awaits only the outer callback promises, so a failing component
write is an unhandled promise rejection that bypasses the try/catch of
`main` and crashes the process with a nonzero exit code, while transform
errors, assets-listing errors and the awaited index writes reject the awaited
chain and are caught.  A build therefore yields a pair: the awaited result
(the performed writes in program order, or the first caught error) and the
list of unhandled write rejections. -/

structure Icon where
  svg : String
  componentName : String
deriving Repr, DecidableEq

structure BuildEnv where
  /-- the positional CLI argument selecting the framework target -/
  target : String
  /-- `fs.readdir(./assets)` -/
  files : Except String (List String)
  /-- `fs.readFile` per asset file -/
  content : String → Except String String
  /-- external svgr + swc compilation: svg, component name, swc module type
  (`es6` or `commonjs`) to compiled code -/
  reactCompile : String → String → String → Except String String
  /-- external @vue/compiler-dom compilation in module mode -/
  vueCompile : String → Except String String
  /-- per-path write failure, `none` meaning success -/
  writeOk : String → Option String

/-- `getIcons` (src/scripts/build.js lines 113–123). -/
def getIconsL (env : BuildEnv) : List String → Except String (List Icon)
  | [] => .ok []
  | f :: fs => do
    let svg ← env.content f
    let rest ← getIconsL env fs
    .ok (⟨svg, componentName f⟩ :: rest)

def getIcons (env : BuildEnv) : Except String (List Icon) := do
  let files ← env.files
  getIconsL env files

/-- `transforms[target](...)` for one icon (src/scripts/build.js lines 11–69);
an unknown target throws a TypeError because `transforms[target]` is undefined. -/
def transformIcon (env : BuildEnv) (target : String) (i : Icon) (format : String) :
    Except String String :=
  if target = "react" then do
    let code ← env.reactCompile i.svg i.componentName (if format = "esm" then "es6" else "commonjs")
    if format = "cjs" then .ok (reactCjsPost code) else .ok code
  else if target = "vue" then do
    let code ← env.vueCompile (vueSvgSizeRewrite i.svg)
    if format = "cjs" then .ok (vueCjsPost code) else .ok (vueEsmPost code)
  else .error "TypeError: transforms[target] is not a function"

/-- The hand-templated type-declaration lines (src/scripts/build.js lines 83–95). -/
def typeLines (target name : String) : List String :=
  if target = "react" then
    ["import * as React from \x27react\x27;",
     "declare const " ++ name ++
       ": React.ForwardRefExoticComponent<React.PropsWithoutRef<React.SVGProps<SVGSVGElement>> & \x7b title?: string, titleId?: string \x7d & React.RefAttributes<SVGSVGElement>>;",
     "export default " ++ name ++ ";"]
  else if target = "vue" then
    ["import type \x7b FunctionalComponent, HTMLAttributes, VNodeProps \x7d from \x27vue\x27;",
     "declare const " ++ name ++ ": FunctionalComponent<HTMLAttributes & VNodeProps>;",
     "export default " ++ name ++ ";"]
  else []

def outputDir (target format : String) : String :=
  "./packages/" ++ target ++ "/" ++ format

/-- `ensureWrite`: directory creation always succeeds; the write either fails
with the environment-given error or records (path, text). -/
def ensureWriteM (env : BuildEnv) (path text : String) : Except String (String × String) :=
  match env.writeOk path with
  | some e => .error e
  | none => .ok (path, text)

/-- One line of `exportAll` (src/scripts/build.js lines 125–134). -/
def exportAllLine (format name : String) : String :=
  if format = "esm" then
    "export \x7b default as " ++ name ++ " \x7d from \x27./" ++ name ++ "\x27"
  else
    "module.exports." ++ name ++ " = require(\x27./" ++ name ++ "\x27)"

def exportAll (icons : List Icon) (format : String) : String :=
  String.intercalate "\n" (icons.map (fun i => exportAllLine format i.componentName))

/-- The per-icon callbacks of `Promise.all` (lines 76–102).  Every callback
whose transform succeeds attempts both of its `ensureWrite` calls (the
callbacks run independently), but returns the two promises unawaited.  First
component: the awaited outcome — the earliest transform error in icon order,
or the writes that were performed.  Second component: the unhandled
rejections of the failed component writes. -/
def buildComponents (env : BuildEnv) (target format output : String) :
    List Icon → Except String (List (String × String)) × List String
  | [] => (.ok [], [])
  | i :: is =>
    let rest := buildComponents env target format output is
    match transformIcon env target i format with
    | .error e => (.error e, rest.2)
    | .ok content =>
      let r1 := ensureWriteM env (output ++ "/" ++ i.componentName ++ ".js") content
      let r2 := ensureWriteM env (output ++ "/" ++ i.componentName ++ ".d.ts")
        (String.intercalate "\n" (typeLines target i.componentName) ++ "\n")
      let ws := (match r1 with | .ok w => [w] | .error _ => []) ++
        (match r2 with | .ok w => [w] | .error _ => [])
      let rej := (match r1 with | .ok _ => [] | .error e => [e]) ++
        (match r2 with | .ok _ => [] | .error e => [e])
      (match rest.1 with
       | .ok wsRest => .ok (ws ++ wsRest)
       | .error e => .error e,
       rej ++ rest.2)

/-- The awaited part of `build(target, format)` (lines 71–106): `Promise.all`
over the component callbacks, then the awaited `index.js` write in the
requested format, then the awaited `index.d.ts` write always in esm form.
Note the unawaited component writes do not feed into this chain: their
outcomes are invisible to it. -/
def buildResult (env : BuildEnv) (target format : String) :
    Except String (List (String × String)) := do
  let output := outputDir target format
  let icons ← getIcons env
  let ws ← (buildComponents env target format output icons).1
  let w1 ← ensureWriteM env (output ++ "/index.js") (exportAll icons format)
  let w2 ← ensureWriteM env (output ++ "/index.d.ts") (exportAll icons "esm")
  .ok (ws ++ [w1, w2])

/-- The unhandled write rejections escaping one `build` invocation. -/
def buildRejections (env : BuildEnv) (target format : String) : List String :=
  match getIcons env with
  | .error _ => []
  | .ok icons => (buildComponents env target format (outputDir target format) icons).2

/-- `build(target, format)` (lines 71–106): awaited outcome and escaped
rejections. -/
def build (env : BuildEnv) (target format : String) :
    Except String (List (String × String)) × List String :=
  (buildResult env target format, buildRejections env target format)

structure BuildOutcome where
  stderrLog : List String
  exitCode : Nat
deriving Repr, DecidableEq

/-- The body of the `try` in `main()`: both formats of the selected target run
under one `Promise.all`; the awaited chain carries the first caught error, the
unhandled rejections of both builds escape. -/
def buildPipeline (env : BuildEnv) : Except String (List (String × String)) × List String :=
  ((do
    let a ← (build env env.target "esm").1
    let b ← (build env env.target "cjs").1
    .ok (a ++ b)),
   (build env env.target "esm").2 ++ (build env env.target "cjs").2)

/-- `main()` of src/scripts/build.js (lines 136–150) under Node semantics: the
single top-level `try`/`catch` logs any error of the awaited chain with
`console.error` and never touches the exit code — but an unhandled promise
rejection from a component write is reported outside the catch and terminates
the process with a nonzero exit code. -/
def buildMain (env : BuildEnv) : BuildOutcome :=
  match buildPipeline env with
  | (.error e, rej) => ⟨e :: rej, if rej.isEmpty then 0 else 1⟩
  | (.ok _, rej) => ⟨rej, if rej.isEmpty then 0 else 1⟩

/-! ## Release workflow (`src/unnamed/part_000`)

The workflow is embedded as a deterministic interpreter.  The environment
supplies everything the script obtains from the outside world: outputs or
failures of `execSync` commands, the remote-head fetch, prompt answers, the
dry-run flag, the token, the content `conventional-changelog` regenerates, and
the octokit call result.  The state carries the manifest file system (root
version, workspace package manifests, changelog), the module-level
`versionUpdated` flag, and a trace of the external commands that were
executed (command, working directory). -/

structure Pkg where
  name : String
  isDir : Bool
  «private» : Bool
  version : String
deriving Repr, DecidableEq

structure FS where
  rootVersion : String
  pkgs : List Pkg
  changelog : String
deriving Repr, DecidableEq

/-- The `packages` global (lines 31–38): entries of `../packages` that are
directories holding a manifest that is not private. -/
def packagesOf (fs : FS) : List String :=
  (fs.pkgs.filter (fun p => p.isDir && !p.«private»)).map (fun p => p.name)

/-- `updatePackagesVersion` and `updatePackageVersion` (lines 104–120): write
`version` into the root manifest and into the manifest of every package whose
name is listed in `names`. -/
def updatePackagesVersion (version : String) (names : List String) (fs : FS) : FS :=
  { fs with
    rootVersion := version
    pkgs := fs.pkgs.map (fun p =>
      if names.contains p.name then { p with version := version } else p) }

/-- Kinds of thrown values: explicit `new Error`, implicit TypeErrors from
destructuring a null regex match, `execSync` failures, and rejected octokit
calls. -/
inductive JsError where
  | explicitErr (msg : String)
  | typeErr (msg : String)
  | cmdErr (msg : String)
  | apiErr (msg : String)
deriving Repr, DecidableEq

inductive MainOutcome where
  | earlyExit
  | completed
deriving Repr, DecidableEq

inductive RelType where
  | major
  | minor
  | patch
  | custom
deriving Repr, DecidableEq

structure Env where
  /-- `execSync`: command and working directory to output or thrown message -/
  exec : String → String → Except String String
  /-- the GitHub commits fetch: network failure or the remote head sha -/
  fetchSha : Except Unit String
  /-- prompt: continue although the local head differs from the remote -/
  confirmNotSync : Bool
  /-- positional CLI argument: an explicit target version -/
  positional : Option String
  /-- prompt: selected release type -/
  selectType : RelType
  /-- prompt: free-text custom version -/
  customVersion : String
  /-- prompt: `Releasing vX. Confirm?` -/
  confirmRelease : Bool
  /-- prompt: `Changelog generated. Does it look good?` -/
  changelogLooksGood : Bool
  /-- the `--dry` flag -/
  dry : Bool
  /-- the GITHUB_TOKEN environment variable -/
  githubToken : Option String
  /-- content of CHANGELOG.md after `conventional-changelog` runs -/
  generatedChangelog : String
  /-- result of `octokit.repos.createRelease` -/
  createReleaseOk : Except String Unit

structure St where
  fs : FS
  versionUpdated : Bool
  effects : List (String × String)
deriving Repr, DecidableEq

def initSt (f : FS) : St := ⟨f, false, []⟩

def addEffect (st : St) (e : String × String) : St :=
  { st with effects := st.effects ++ [e] }

/-- `run(command, options)` = `execSync`: the attempted command is recorded in
the trace; the environment decides between an output and a thrown error. -/
def runCmd (env : Env) (cmd cwd : String) (st : St) : Except JsError String × St :=
  let st := addEffect st (cmd, cwd)
  match env.exec cmd cwd with
  | .error m => (.error (.cmdErr m), st)
  | .ok out => (.ok out, st)

/-- `runIfNotDry` (lines 45–49): in dry-run mode the command is only logged. -/
def runIfNotDry (env : Env) (cmd : String) (st : St) : Except JsError String × St :=
  if env.dry then (.ok "", st) else runCmd env cmd "" st

/-- A numeric semver segment: digits only, no leading zero. -/
def isNumericSeg (l : List Char) : Bool :=
  !l.isEmpty && l.all Char.isDigit && (l.length = 1 || l.head? ≠ some '0')

/-- Modelled from the spec: the external semantic-version parser's validity
check (`semver.valid`), for the plain `MAJOR.MINOR.PATCH` numeric shape the
workflow deals in (prerelease and build forms are not modelled). -/
def semverValid (s : String) : Bool :=
  match s.data.splitOn '.' with
  | [a, b, c] => isNumericSeg a && isNumericSeg b && isNumericSeg c
  | _ => false

def segToNat (l : List Char) : Nat :=
  l.foldl (fun n c => n * 10 + (c.toNat - 48)) 0

/-- Modelled from the spec: `semver.inc` for the three plain release types
(`null` — `none` — when the current version does not parse). -/
def semverInc (s : String) (r : RelType) : Option String :=
  match s.data.splitOn '.' with
  | [a, b, c] =>
    if isNumericSeg a && isNumericSeg b && isNumericSeg c then
      match r with
      | .major => some (toString (segToNat a + 1) ++ ".0.0")
      | .minor => some (toString (segToNat a) ++ "." ++ toString (segToNat b + 1) ++ ".0")
      | .patch => some (toString (segToNat a) ++ "." ++ toString (segToNat b) ++ "." ++
          toString (segToNat c + 1))
      | .custom => none
    else none
  | _ => none

/-- The version-selection logic of `main` (lines 203–225): a supplied
positional argument wins; otherwise the selected bump suggestion — whose value
is extracted back out of the choice label `type (version)` by `/\((.*)\)/`,
giving the string `null` when `semver.inc` failed — or the free-text custom
entry. -/
def resolvedVersion (currentVersion : String) (env : Env) : String :=
  match env.positional with
  | some v => v
  | none =>
    match env.selectType with
    | .custom => env.customVersion
    | t => (semverInc currentVersion t).getD "null"

/-- Match `github\.com\/([^\/]+)\/([^\/]+?)(?:\.git)?$` at one start position.
The owner group is greedy and runs to the first slash; the lazy repo group with
the optional `.git` and the end anchor amounts to: the rest of the string,
slash-free, with one trailing `.git` stripped when anything precedes it. -/
def repoMatchAt (m : List Char) : Option (String × String) :=
  if startsWithL "github.com/".data m then
    let m1 := m.drop 11
    let owner := takeWhileNe '/' m1
    if owner.isEmpty then none else
    match m1.drop owner.length with
    | '/' :: rest =>
      if rest.isEmpty || rest.contains '/' then none
      else
        let repo :=
          if startsWithL "tig.".data rest.reverse && rest.length ≥ 5 then
            rest.take (rest.length - 4)
          else rest
        some (⟨owner⟩, ⟨repo⟩)
    | _ => none
  else none

/-- `remote.match(/github\.com\/([^\/]+)\/([^\/]+?)(?:\.git)?$/)`: leftmost
match over all start positions (lines 67–72). -/
def parseRepoUrl : List Char → Option (String × String)
  | [] => none
  | c :: cs =>
    match repoMatchAt (c :: cs) with
    | some r => some r
    | none => parseRepoUrl cs

/-- Characters of the interpolated version are spliced into the changelog
pattern unescaped, so a dot acts as the regex wildcard and matches any
non-newline character. -/
def versionPatMatch : List Char → List Char → Option (List Char)
  | [], l => some l
  | _ :: _, [] => none
  | p :: ps, c :: cs =>
    if p = '.' then (if c = '\n' || c = '\r' then none else versionPatMatch ps cs)
    else if p = c then versionPatMatch ps cs
    else none

/-- The lazy notes group `([\s\S]*?)\n(?:(?:#\s)|(?:$))`: the shortest block
ending at a newline that is followed by a `#` plus whitespace or by the end of
the input. -/
def lazyNotes : List Char → Option (List Char)
  | [] => none
  | '\n' :: rest =>
    match rest with
    | [] => some []
    | '#' :: d :: _ =>
      if isJsWs d then some []
      else (lazyNotes rest).map (fun g => '\n' :: g)
    | _ => (lazyNotes rest).map (fun g => '\n' :: g)
  | c :: rest => (lazyNotes rest).map (fun g => c :: g)

/-- After `# version \(`: the greedy date group `(.*)` plus `\)\n\n` force the
current line to end with a closing parenthesis followed by a blank line; then
the lazy notes group runs. -/
def notesTailAt (m : List Char) : Option (List Char) :=
  let line := m.takeWhile (fun c => c ≠ '\n' && c ≠ '\r')
  match line.reverse with
  | ')' :: _ =>
    match m.drop line.length with
    | '\n' :: '\n' :: m2 => lazyNotes m2
    | _ => none
  | _ => none

/-- Match the release-notes pattern
`# ${version} \((.*)\)\n\n([\s\S]*?)\n(?:(?:#\s)|(?:$))` at one position. -/
def notesMatchAt (version : String) (m : List Char) : Option (List Char) :=
  if startsWithL ['#', ' '] m then
    match versionPatMatch version.data (m.drop 2) with
    | some (' ' :: '(' :: m2) => notesTailAt m2
    | _ => none
  else none

def extractNotesL (version : String) : List Char → Option (List Char)
  | [] => none
  | c :: cs =>
    match notesMatchAt version (c :: cs) with
    | some g => some g
    | none => extractNotesL version cs

/-- The destructured `exec` of the changelog regex in `publishGitHubRelease`
(lines 156–160): the notes capture of the leftmost match, if any. -/
def extractNotes (version changelog : String) : Option String :=
  (extractNotesL version changelog.data).map (fun l => ⟨l⟩)

/-- `publishGitHubRelease` (lines 152–189).  Note the order: repo info and
release notes are computed before the dry-run and token checks, so a changelog
without a section matching the target version throws — an implicit TypeError
from destructuring a null `exec` result — even in dry-run mode. -/
def publishGitHubReleaseM (env : Env) (version : String) (st : St) :
    Except JsError Unit × St :=
  match runCmd env "git remote get-url origin" "" st with
  | (.error e, st) => (.error e, st)
  | (.ok remoteOut, st) =>
    match parseRepoUrl (trimL remoteOut.data) with
    | none => (.error (.typeErr "null is not iterable (destructuring remote.match)"), st)
    | some ow =>
      match extractNotes version st.fs.changelog with
      | none =>
        (.error (.typeErr "null is not iterable (destructuring the changelog exec)"), st)
      | some _ =>
        if env.dry then (.ok (), st)
        else
          match env.githubToken with
          | none =>
            (.ok (), addEffect st
              ("open newGithubReleaseUrl " ++ ow.1 ++ "/" ++ ow.2 ++ " v" ++ version, ""))
          | some _ =>
            let st := addEffect st ("octokit.repos.createRelease v" ++ version, "")
            match env.createReleaseOk with
            | .error m => (.error (.apiErr m), st)
            | .ok _ => (.ok (), st)

/-- `publishPackage` (lines 135–150): a `previously published` failure is
downgraded to a logged skip; any other failure propagates. -/
def publishPackage (env : Env) (name : String) (flags : List String) (st : St) :
    Except JsError Unit × St :=
  match runCmd env ("pnpm publish --access publish " ++ String.intercalate " " flags)
      ("../packages/" ++ name) st with
  | (.ok _, st) => (.ok (), st)
  | (.error (.cmdErr m), st) =>
    if containsSeq "previously published".data m.data then (.ok (), st)
    else (.error (.cmdErr m), st)
  | (.error e, st) => (.error e, st)

def publishPackagesGo (env : Env) (flags : List String) :
    List String → St → Except JsError Unit × St
  | [], st => (.ok (), st)
  | n :: ns, st =>
    match publishPackage env n flags st with
    | (.ok _, st) => publishPackagesGo env flags ns st
    | (.error e, st) => (.error e, st)

/-- `publishPackages` (lines 122–133): in dry-run mode every package is still
published, with the `--dry-run --no-git-checks` flags appended. -/
def publishPackagesM (env : Env) (names : List String) (st : St) :
    Except JsError Unit × St :=
  publishPackagesGo env (if env.dry then ["--dry-run", "--no-git-checks"] else []) names st

/-- `isMainBranch` (lines 59–61). -/
def phaseBranch (env : Env) (st : St) : Except JsError Bool × St :=
  match runCmd env "git branch --show-current" "" st with
  | (.error e, st) => (.error e, st)
  | (.ok out, st) => (.ok ((⟨trimL out.data⟩ : String) == "main"), st)

/-- `isInSyncWithRemote` (lines 78–102): every failure inside the `try` — a
failing `git remote` or `git rev-parse`, an unparsable remote URL, a failed
fetch — is caught and becomes `false`; a sha mismatch asks for confirmation. -/
def phaseSync (env : Env) (st : St) : Bool × St :=
  match runCmd env "git remote get-url origin" "" st with
  | (.error _, st) => (false, st)
  | (.ok remoteOut, st) =>
    match parseRepoUrl (trimL remoteOut.data) with
    | none => (false, st)
    | some _ =>
      match env.fetchSha with
      | .error _ => (false, st)
      | .ok sha =>
        match runCmd env "git rev-parse HEAD" "" st with
        | (.error _, st) => (false, st)
        | (.ok h, st) =>
          if sha == (⟨trimL h.data⟩ : String) then (true, st) else (env.confirmNotSync, st)

/-- Sequential composition with exception propagation: the rest of `main()`
runs only when the previous statement did not throw.  This is the semantics of
straight-line `await`/call statements inside the `async` body of `main`. -/
def stepOk {α : Type} (r : Except JsError α × St)
    (f : α → St → Except JsError MainOutcome × St) : Except JsError MainOutcome × St :=
  match r with
  | (.error e, st) => (.error e, st)
  | (.ok a, st) => f a st

/-- The commit-if-dirty block of `main` (lines 265–271): nothing happens when
`git diff` is empty after trimming; otherwise `git add` and `git commit` run
through `runIfNotDry`. -/
def commitIfDirty (env : Env) (targetVersion d : String) (st : St) :
    Except JsError String × St :=
  if (⟨trimL d.data⟩ : String) == "" then (.ok "", st)
  else
    match runIfNotDry env "git add -A" st with
    | (.error e, st) => (.error e, st)
    | (.ok _, st) =>
      runIfNotDry env ("git commit -m \"chore(release): release v" ++ targetVersion ++ "\"") st

/-- `main()` of the release script (lines 191–294). -/
def mainRun (env : Env) (fs0 : FS) : Except JsError MainOutcome × St :=
  stepOk (phaseBranch env (initSt fs0)) fun isMain st =>
  if !isMain then (.ok .earlyExit, st) else
  let ps := phaseSync env st
  if !ps.1 then (.ok .earlyExit, ps.2) else
  let st := ps.2
  let targetVersion := resolvedVersion fs0.rootVersion env
  if !semverValid targetVersion then
    (.error (.explicitErr ("Invalid target version: " ++ targetVersion)), st)
  else if !env.confirmRelease then (.ok .earlyExit, st) else
  let st : St :=
    { st with fs := updatePackagesVersion targetVersion (packagesOf fs0) st.fs,
              versionUpdated := true }
  stepOk (runCmd env "conventional-changelog -p angular -i CHANGELOG.md -s" "" st) fun _ st =>
  let st : St := { st with fs := { st.fs with changelog := env.generatedChangelog } }
  if !env.changelogLooksGood then (.ok .earlyExit, st) else
  stepOk (runCmd env "pnpm install --prefer-offline" "" st) fun _ st =>
  stepOk (runCmd env "git diff" "" st) fun d st =>
  stepOk (commitIfDirty env targetVersion d st) fun _ st =>
  stepOk (runIfNotDry env ("git tag v" ++ targetVersion) st) fun _ st =>
  stepOk (runIfNotDry env ("git push origin refs/tags/v" ++ targetVersion) st) fun _ st =>
  stepOk (runIfNotDry env "git push" st) fun _ st =>
  stepOk (publishGitHubReleaseM env targetVersion st) fun _ st =>
  stepOk (runCmd env "pnpm build" "" st) fun _ st =>
  stepOk (publishPackagesM env (packagesOf fs0) st) fun _ st =>
  (.ok .completed, st)

/-- The top-level `main().catch(...)` (lines 296–303): on any thrown value the
version rewrite is rolled back to the startup `currentVersion` when it had
happened, the error is logged, and the process exits with status 1; a resolved
`main()` leaves the default exit status 0. -/
def mainWithCatch (env : Env) (fs0 : FS) : St × Nat :=
  match mainRun env fs0 with
  | (.ok _, st) => (st, 0)
  | (.error _, st) =>
    (if st.versionUpdated then
      { st with fs := updatePackagesVersion fs0.rootVersion (packagesOf fs0) st.fs }
     else st, 1)

/-! ## Side-condition checkers and concrete fixtures used by the theorems -/

/-- No position of `l` starts the literal `<svg`. -/
def noSvgStart : List Char → Bool
  | [] => true
  | c :: cs => !startsWithL ['<', 's', 'v', 'g'] (c :: cs) && noSvgStart cs

/-- No position of `l` starts the literal `Object.defineProperty(exports,`. -/
def noDpStart : List Char → Bool
  | [] => true
  | c :: cs => !startsWithL dpTrigger (c :: cs) && noDpStart cs

/-- Nonempty and the first character is not JavaScript whitespace. -/
def headNotWs : List Char → Bool
  | [] => false
  | c :: _ => !isJsWs c

/-- A realistic compiled-module preamble emitted by swc in commonjs mode:
the `__esModule` marker property (which the post-pass must keep). -/
def c7pre : String :=
  "\"use strict\";\nObject.defineProperty(exports, \"__esModule\", \x7b\n    value: true\n\x7d);\n"

/-- The generated default-export property definition the post-pass strips. -/
def c7dp : String :=
  "Object.defineProperty(exports, \"default\", \x7b\n    enumerable: true,\n    get: function() \x7b\n        return _default;\n    \x7d\n\x7d);\n"

/-- Component body between the preamble and the trailing default assignment. -/
def c7mid : String :=
  "const _react = require(\"react\");\nconst ForwardRef = _react.forwardRef(SvgComponent);\n"

/-- A compiled react component in the swc commonjs shape, with the trailing
default-export assignment `const _default = expr;`. -/
def c7input (expr : String) : String :=
  c7pre ++ c7dp ++ c7mid ++ "const _default = " ++ expr ++ ";"

/-- No position of `l` begins a whitespace character whose whitespace run is
followed by `attr="`: the scanned region carries no further
whitespace-preceded `attr="…"` attribute occurrence. -/
def noAttrMatchPos (attr : List Char) : List Char → Bool
  | [] => true
  | c :: cs =>
    !(isJsWs c && startsWithL (attr ++ ['=', '"']) ((c :: cs).dropWhile isJsWs)) &&
      noAttrMatchPos attr cs

/-- The part of a `width`-first root tag after the opening quote of the width
value: `24"`, then the attributes between width and height, then
` height="24"`, then the trailing attributes. -/
def c3qW (p2 p3 : String) : List Char :=
  p2.data ++ ' ' :: 'h' :: 'e' :: 'i' :: 'g' :: 'h' :: 't' :: '=' :: '"' :: '2' :: '4' :: '"' :: p3.data

/-- The region scanned by the height pass of a `height`-first root tag: the
attributes between height and width, then ` width="1em"` (already rewritten by
the width pass), then the trailing attributes. -/
def c3qH (p2 p3 : String) : List Char :=
  p2.data ++ ' ' :: 'w' :: 'i' :: 'd' :: 't' :: 'h' :: '=' :: '"' :: '1' :: 'e' :: 'm' :: '"' :: p3.data

/-- Commands the claim C10 says are replaced by logging in a dry run. -/
def isGitMutating (c : String) : Bool :=
  startsWithL "git add".data c.data || startsWithL "git commit".data c.data ||
  startsWithL "git tag".data c.data || startsWithL "git push".data c.data

/-- GitHub release creation (api call) or its browser fallback. -/
def isReleaseRemoteEffect (c : String) : Bool :=
  startsWithL "octokit".data c.data || startsWithL "open".data c.data

/-- The exact command trace of a completed dry run, before the per-package
publishes. -/
def dryRunEffects : List (String × String) :=
  [("git branch --show-current", ""),
   ("git remote get-url origin", ""),
   ("git rev-parse HEAD", ""),
   ("conventional-changelog -p angular -i CHANGELOG.md -s", ""),
   ("pnpm install --prefer-offline", ""),
   ("git diff", ""),
   ("git remote get-url origin", ""),
   ("pnpm build", "")]

/-- The per-package publish effect of a dry run. -/
def dryPublishEffect (n : String) : String × String :=
  ("pnpm publish --access publish --dry-run --no-git-checks", "../packages/" ++ n)

/-- The command trace entry of one `pnpm publish` invocation. -/
def publishEffect (flags : List String) (n : String) : String × String :=
  ("pnpm publish --access publish " ++ String.intercalate " " flags, "../packages/" ++ n)

/-- The exact command trace of a run stopped at the changelog confirmation. -/
def changelogStopEffects : List (String × String) :=
  [("git branch --show-current", ""),
   ("git remote get-url origin", ""),
   ("git rev-parse HEAD", ""),
   ("conventional-changelog -p angular -i CHANGELOG.md -s", "")]

/-- Workspace fixture: two public packages, a private one, a stray file. -/
def wFS : FS :=
  { rootVersion := "1.9.0",
    pkgs := [{ name := "react", isDir := true, «private» := false, version := "1.9.0" },
             { name := "vue", isDir := true, «private» := false, version := "1.9.0" },
             { name := "priv", isDir := true, «private» := true, version := "0.1.0" },
             { name := "README.md", isDir := false, «private» := false, version := "" }],
    changelog := "# 1.9.0 (2025-01-01)\n\n* old stuff\n" }

/-- Shell-command oracle: every command succeeds with a plausible output,
except the one named by `failOn`. -/
def happyExec (failOn cmd _cwd : String) : Except String String :=
  if cmd = failOn then .error ("command failed: " ++ cmd)
  else if cmd = "git branch --show-current" then .ok "main\n"
  else if cmd = "git remote get-url origin" then .ok "https://github.com/985563349/skill-icons.git\n"
  else if cmd = "git rev-parse HEAD" then .ok "abc123\n"
  else if cmd = "git diff" then .ok " M package.json\n"
  else .ok ""

/-- Happy-path release environment: explicit target version 2.0.0, every
prompt confirmed, a token present, not a dry run. -/
def relEnvBase : Env :=
  { exec := happyExec "",
    fetchSha := .ok "abc123",
    confirmNotSync := false,
    positional := some "2.0.0",
    selectType := .major,
    customVersion := "",
    confirmRelease := true,
    changelogLooksGood := true,
    dry := false,
    githubToken := some "token",
    generatedChangelog := "# 2.0.0 (2026-01-01)\n\n* feat: things\n* fix: stuff\n",
    createReleaseOk := .ok () }

/-- A release run in which the lockfile update throws after the version
rewrite. -/
def c1Env : Env := { relEnvBase with exec := happyExec "pnpm install --prefer-offline" }

/-- A release run whose regenerated changelog has no section for the target
version. -/
def c4CexEnv : Env := { relEnvBase with generatedChangelog := "## junk\n" }

/-- A release run with an invalid explicit target version. -/
def c4InvEnv : Env := { relEnvBase with positional := some "not-a-version" }

/-- A release run in which the changelog confirmation is rejected. -/
def c8Env : Env := { relEnvBase with changelogLooksGood := false }

/-- A dry release run. -/
def c10Env : Env := { relEnvBase with dry := true }

/-- A build invocation whose assets directory is unreadable. -/
def c6Env : BuildEnv :=
  { target := "react",
    files := .error "EACCES: permission denied, scandir ./assets",
    content := fun _ => .ok "",
    reactCompile := fun _ _ _ => .ok "",
    vueCompile := fun _ => .ok "",
    writeOk := fun _ => none }

/-- A one-icon react build in which the esm component write fails: the
rejection is unhandled because the write promise is never awaited. -/
def c6CrashEnv : BuildEnv :=
  { target := "react",
    files := .ok ["vue.svg"],
    content := fun _ => .ok "<svg/>",
    reactCompile := fun _ _ _ => .ok "COMPILED",
    vueCompile := fun _ => .ok "VCOMPILED",
    writeOk := fun p =>
      if p = "./packages/react/esm/Vue.js" then
        some "ENOSPC: no space left on device, write ./packages/react/esm/Vue.js"
      else none }

/-- A one-icon react build whose external compiler returns a fixed text. -/
def c9Env : BuildEnv :=
  { target := "react",
    files := .ok ["vue.svg"],
    content := fun _ => .ok "<svg/>",
    reactCompile := fun _ _ _ => .ok "COMPILED",
    vueCompile := fun _ => .ok "VCOMPILED",
    writeOk := fun _ => none }

/-! # Theorems -/

/-! ## Generic helper lemmas -/

theorem str_data_append (a b : String) : (a ++ b).data = a.data ++ b.data := rfl

theorem str_mk_data (s : String) : String.mk s.data = s := rfl

theorem updatePackagesVersion_rootVersion (v : String) (names : List String) (fs : FS) :
    (updatePackagesVersion v names fs).rootVersion = v := rfl

theorem updatePackagesVersion_pkgs_mem (v : String) (names : List String) (fs : FS) :
    ∀ p ∈ (updatePackagesVersion v names fs).pkgs, p.name ∈ names → p.version = v := by
  intro p hp hn
  simp only [updatePackagesVersion, List.mem_map] at hp
  obtain ⟨q, _, hpq⟩ := hp
  by_cases h : names.contains q.name = true
  · rw [← hpq, if_pos h]
  · rw [← hpq, if_neg h] at hn
    exact absurd (List.elem_iff.mpr hn) h

/-! ## C1 — rollback on failure after the version rewrite -/

/-- **C1.** For every run of the release workflow in which the package-manifest
versions were rewritten (`versionUpdated` set) and a later step threw, the
top-level catch handler rewrites the version field of the root manifest and of
every non-private workspace package manifest back to the pre-release current
version, and the process exits with the non-zero status 1. -/
theorem c1_rollback_on_failure (env : Env) (fs0 : FS) (e : JsError)
    (h1 : (mainRun env fs0).1 = .error e)
    (h2 : (mainRun env fs0).2.versionUpdated = true) :
    (mainWithCatch env fs0).2 = 1 ∧
    (mainWithCatch env fs0).1.fs.rootVersion = fs0.rootVersion ∧
    ∀ p ∈ (mainWithCatch env fs0).1.fs.pkgs, p.name ∈ packagesOf fs0 →
      p.version = fs0.rootVersion := by
  rcases hE : mainRun env fs0 with ⟨r, st⟩
  rw [hE] at h1 h2
  simp only at h1 h2
  subst h1
  have hred : mainWithCatch env fs0
      = ({ st with fs := updatePackagesVersion fs0.rootVersion (packagesOf fs0) st.fs }, 1) := by
    simp [mainWithCatch, hE, h2]
  rw [hred]
  exact ⟨rfl, updatePackagesVersion_rootVersion _ _ _,
    updatePackagesVersion_pkgs_mem _ _ _⟩

/-- Witness for C1: the lockfile update throws after the version rewrite; the
handler restores `1.9.0` everywhere and exits 1. -/
theorem c1_rollback_on_failure_witness :
    (mainRun c1Env wFS).1 = .error (.cmdErr "command failed: pnpm install --prefer-offline") ∧
    (mainRun c1Env wFS).2.versionUpdated = true ∧
    ((mainWithCatch c1Env wFS).2 = 1 ∧
     (mainWithCatch c1Env wFS).1.fs.rootVersion = wFS.rootVersion ∧
     ∀ p ∈ (mainWithCatch c1Env wFS).1.fs.pkgs, p.name ∈ packagesOf wFS →
       p.version = wFS.rootVersion) :=
  ⟨rfl, rfl, c1_rollback_on_failure c1Env wFS _ rfl rfl⟩

/-! ## C6 — error handling of the build pipeline -/

/-- C6 counterexample: with one icon and a full disk at the component file
`Vue.js`, the awaited chain of the pipeline resolves — the try/catch of `main`
catches nothing — yet the failed component write is an unhandled rejection and
the process exits with the nonzero code 1, against the claim that every error
is caught, logged, and leaves the exit code at 0. -/
theorem c6_counterexample :
    ((buildPipeline c6CrashEnv).1).toOption.isSome = true ∧
    (buildPipeline c6CrashEnv).2 =
      ["ENOSPC: no space left on device, write ./packages/react/esm/Vue.js"] ∧
    (buildMain c6CrashEnv).exitCode = 1 :=
  ⟨rfl, rfl, rfl⟩

/-- **C6 (amended).** Errors on the awaited path of the build pipeline — the
assets listing, the icon transforms, and the two index writes — are caught
once at the top-level handler, logged to standard error, and leave the exit
code at 0.  But the per-component writes are returned unawaited from the
async `flatMap` callback, so `Promise.all` never awaits them: their failures
are unhandled promise rejections that bypass the catch and crash the process
— the exit code is 0 exactly when no component write failed. -/
theorem c6_error_handling :
    (∀ (env : BuildEnv) (e : String) (rej : List String),
      buildPipeline env = (.error e, rej) → (buildMain env).stderrLog = e :: rej) ∧
    (∀ (env : BuildEnv) (ws : List (String × String)),
      buildPipeline env = (.ok ws, []) → buildMain env = ⟨[], 0⟩) ∧
    (∀ env : BuildEnv, (buildMain env).exitCode = 0 ↔ (buildPipeline env).2 = []) := by
  refine ⟨?_, ?_, ?_⟩
  · intro env e rej h
    unfold buildMain
    rw [h]
  · intro env ws h
    unfold buildMain
    rw [h]
    rfl
  · intro env
    unfold buildMain
    rcases hp : buildPipeline env with ⟨r, rej⟩
    rcases r with e | ws <;> cases rej <;> simp

/-- Witness for C6: a caught assets-listing failure is logged with exit 0; a
clean build exits 0 with nothing logged; the crashing fixture fails the
exit-0 test because its rejection list is nonempty. -/
theorem c6_error_handling_witness :
    (buildMain c6Env).stderrLog = ["EACCES: permission denied, scandir ./assets"] ∧
    buildMain c9Env = ⟨[], 0⟩ ∧
    ((buildMain c6CrashEnv).exitCode = 0 ↔ (buildPipeline c6CrashEnv).2 = []) :=
  ⟨c6_error_handling.1 c6Env "EACCES: permission denied, scandir ./assets" [] rfl,
   c6_error_handling.2.1 c9Env ((buildPipeline c9Env).1.toOption.getD []) rfl,
   c6_error_handling.2.2 c6CrashEnv⟩

/-! ## C9 — the aggregate index.d.ts is always emitted in esm form -/

theorem ensureWriteM_ok {env : BuildEnv} {p t : String} {w : String × String}
    (h : ensureWriteM env p t = .ok w) : w = (p, t) := by
  unfold ensureWriteM at h
  cases hw : env.writeOk p <;> rw [hw] at h
  · cases h; rfl
  · cases h

/-- **C9.** For every build invocation, the aggregate `index.d.ts` is generated
with module-style (esm) export syntax regardless of the module format being
built, while the accompanying `index.js` follows the requested format. -/
theorem c9_index_dts_always_esm (env : BuildEnv) (target format : String)
    (icons : List Icon) (ws : List (String × String))
    (hi : getIcons env = .ok icons)
    (hb : (build env target format).1 = .ok ws) :
    (outputDir target format ++ "/index.d.ts", exportAll icons "esm") ∈ ws ∧
    (outputDir target format ++ "/index.js", exportAll icons format) ∈ ws := by
  have hb2 : buildResult env target format = .ok ws := hb
  unfold buildResult at hb2
  rw [hi] at hb2
  simp only [bind, Except.bind] at hb2
  rcases hc : (buildComponents env target format (outputDir target format) icons).1
    with e | comps <;> rw [hc] at hb2
  · cases hb2
  · rcases h1 : ensureWriteM env (outputDir target format ++ "/index.js")
      (exportAll icons format) with e | w1 <;> rw [h1] at hb2
    · cases hb2
    · rcases h2 : ensureWriteM env (outputDir target format ++ "/index.d.ts")
        (exportAll icons "esm") with e | w2 <;> rw [h2] at hb2
      · cases hb2
      · cases hb2
        rw [ensureWriteM_ok h1, ensureWriteM_ok h2]
        constructor <;> simp [List.mem_append]

/-! ## C2 — component-name derivation -/

/-- C2 counterexample: `getIcons` strips only a trailing `.svg`.  For the input
filename `icon.png` the code yields `IconPng`, while the claimed rule — strip
the file extension, then PascalCase — yields `Icon`. -/
theorem c2_counterexample :
    componentName "icon.png" = "IconPng" ∧
    componentNameSpec "icon.png" = "Icon" ∧
    componentName "icon.png" ≠ componentNameSpec "icon.png" := by
  refine ⟨rfl, rfl, ?_⟩
  decide

/-- **C2 (amended).** The icon loader derives the component name by stripping a
trailing `.svg` extension — other extensions are kept and become part of the
name — and converting the remainder to PascalCase; the derivation is a pure
function of the filename, hence deterministic across runs. -/
theorem c2_name_derivation :
    (∀ s : String, componentName (s ++ ".svg") = pascalCase s) ∧
    (∀ f : String, f.data.reverse.take 4 ≠ ['g', 'v', 's', '.'] →
      componentName f = pascalCase f) ∧
    (∀ f g : String, f = g → componentName f = componentName g) := by
  refine ⟨?_, ?_, ?_⟩
  · intro s
    unfold componentName
    have h1 : (s ++ ".svg").data = s.data ++ ['.', 's', 'v', 'g'] := rfl
    rw [h1]
    unfold stripSvgExtL
    have h2 : (s.data ++ ['.', 's', 'v', 'g']).reverse = ['g', 'v', 's', '.'] ++ s.data.reverse := by
      rw [List.reverse_append]; rfl
    rw [h2, List.take_left' (by rfl), if_pos rfl, List.drop_left' (by rfl),
      List.reverse_reverse, str_mk_data]
  · intro f h
    unfold componentName stripSvgExtL
    rw [if_neg h, str_mk_data]
  · intro f g h
    rw [h]

/-- Witness for C2: a real icon name, a non-svg name, and determinism at a
concrete input. -/
theorem c2_name_derivation_witness :
    componentName ("arch-linux" ++ ".svg") = pascalCase "arch-linux" ∧
    (("icon.png" : String).data.reverse.take 4 ≠ ['g', 'v', 's', '.'] ∧
      componentName "icon.png" = pascalCase "icon.png") ∧
    componentName "a" = componentName "a" :=
  ⟨c2_name_derivation.1 "arch-linux",
   ⟨by decide, c2_name_derivation.2.1 "icon.png" (by decide)⟩,
   c2_name_derivation.2.2 "a" "a" rfl⟩

/-! ## Release-phase characterisation lemmas -/

theorem runCmd_state (env : Env) (c w : String) (st : St) :
    (runCmd env c w st).2 = addEffect st (c, w) := by
  unfold runCmd
  cases env.exec c w <;> rfl

theorem phaseBranch_state (env : Env) (st : St) :
    (phaseBranch env st).2 = addEffect st ("git branch --show-current", "") := by
  unfold phaseBranch runCmd
  cases env.exec "git branch --show-current" "" <;> rfl

theorem phaseSync_preserve (env : Env) (st : St) :
    (phaseSync env st).2.fs = st.fs ∧ (phaseSync env st).2.versionUpdated = st.versionUpdated := by
  unfold phaseSync runCmd addEffect
  cases hx1 : env.exec "git remote get-url origin" "" with
  | error m => exact ⟨rfl, rfl⟩
  | ok out =>
    dsimp only
    cases hx2 : parseRepoUrl (trimL out.data) with
    | none => exact ⟨rfl, rfl⟩
    | some ow =>
      cases hx3 : env.fetchSha with
      | error u => exact ⟨rfl, rfl⟩
      | ok sha =>
        dsimp only
        cases hx4 : env.exec "git rev-parse HEAD" "" with
        | error m => exact ⟨rfl, rfl⟩
        | ok h2 =>
          dsimp only
          by_cases hsha : (sha == (⟨trimL h2.data⟩ : String)) = true
          · rw [if_pos hsha]; exact ⟨rfl, rfl⟩
          · rw [if_neg hsha]; exact ⟨rfl, rfl⟩

theorem phaseSync_true_state (env : Env) (st : St) (h : (phaseSync env st).1 = true) :
    (phaseSync env st).2 = { st with effects := st.effects ++
      [("git remote get-url origin", ""), ("git rev-parse HEAD", "")] } := by
  unfold phaseSync runCmd addEffect at h ⊢
  cases hx1 : env.exec "git remote get-url origin" "" with
  | error m => rw [hx1] at h; cases h
  | ok out =>
    rw [hx1] at h
    dsimp only at h ⊢
    cases hx2 : parseRepoUrl (trimL out.data) with
    | none => rw [hx2] at h; cases h
    | some ow =>
      rw [hx2] at h
      cases hx3 : env.fetchSha with
      | error u => rw [hx3] at h; cases h
      | ok sha =>
        rw [hx3] at h
        dsimp only at h ⊢
        cases hx4 : env.exec "git rev-parse HEAD" "" with
        | error m => rw [hx4] at h; cases h
        | ok h2 =>
          rw [hx4] at h
          dsimp only at h ⊢
          by_cases hsha : (sha == (⟨trimL h2.data⟩ : String)) = true
          · rw [if_pos hsha]; simp [List.append_assoc]
          · rw [if_neg hsha]; simp [List.append_assoc]

theorem stepOk_ok {α : Type} (a : α) (st : St) (f : α → St → Except JsError MainOutcome × St) :
    stepOk (.ok a, st) f = f a st := rfl

theorem stepOk_error {α : Type} (e : JsError) (st : St)
    (f : α → St → Except JsError MainOutcome × St) :
    stepOk (.error e, st) f = (.error e, st) := rfl

/-! ## C8 — rejected changelog confirmation stops the workflow -/

/-- **C8.** When the interactive changelog confirmation is rejected after the
version rewrite happened, `main` returns without executing any later step: the
recorded command trace ends at the `conventional-changelog` invocation, the
already-written version bump is left in place in the root manifest and in every
non-private workspace package manifest, and the process exits normally with
status 0. -/

theorem c8_changelog_rejection_stops (env : Env) (fs0 : FS) (o : MainOutcome)
    (h1 : env.changelogLooksGood = false)
    (h2 : (mainRun env fs0).1 = .ok o)
    (h3 : (mainRun env fs0).2.versionUpdated = true) :
    (mainWithCatch env fs0).2 = 0 ∧
    (mainRun env fs0).2.fs.rootVersion = resolvedVersion fs0.rootVersion env ∧
    (∀ p ∈ (mainRun env fs0).2.fs.pkgs, p.name ∈ packagesOf fs0 →
      p.version = resolvedVersion fs0.rootVersion env) ∧
    (mainRun env fs0).2.effects = changelogStopEffects := by
  have hst1 := phaseBranch_state env (initSt fs0)
  unfold mainRun at h2 h3
  rcases hB : phaseBranch env (initSt fs0) with ⟨rb, st1⟩
  rw [hB] at h2 h3 hst1
  have hst1' : st1 = addEffect (initSt fs0) ("git branch --show-current", "") := hst1
  rcases rb with e | isMain
  · rw [stepOk_error] at h2; cases h2
  simp only [stepOk_ok] at h2 h3
  cases isMain with
  | false =>
    have h3' : st1.versionUpdated = true := h3
    rw [hst1'] at h3'
    simp [addEffect, initSt] at h3'
  | true =>
    rw [if_neg (by decide)] at h2 h3
    have hpre := phaseSync_preserve env st1
    rcases hS : phaseSync env st1 with ⟨bs, st2⟩
    rw [hS] at h2 h3 hpre
    have hpre' : st2.fs = st1.fs ∧ st2.versionUpdated = st1.versionUpdated := hpre
    dsimp only at h2 h3
    cases bs with
    | false =>
      have h3' : st2.versionUpdated = true := h3
      rw [hpre'.2, hst1'] at h3'
      simp [addEffect, initSt] at h3'
    | true =>
      rw [if_neg (by decide)] at h2 h3
      by_cases hv : semverValid (resolvedVersion fs0.rootVersion env) = true
      case neg =>
        rw [Bool.not_eq_true] at hv
        rw [hv] at h2
        rw [if_pos (by decide)] at h2
        cases h2
      case pos =>
      rw [hv] at h2 h3
      rw [if_neg (by decide)] at h2 h3
      cases hcr : env.confirmRelease with
      | false =>
        rw [hcr] at h3
        rw [if_pos (by decide)] at h3
        have h3' : st2.versionUpdated = true := h3
        rw [hpre'.2, hst1'] at h3'
        simp [addEffect, initSt] at h3'
      | true =>
        rw [hcr] at h2 h3
        rw [if_neg (by decide)] at h2 h3
        have hC4 := runCmd_state env "conventional-changelog -p angular -i CHANGELOG.md -s" ""
          { st2 with fs := updatePackagesVersion (resolvedVersion fs0.rootVersion env) (packagesOf fs0) st2.fs,
                     versionUpdated := true }
        rcases hC : runCmd env "conventional-changelog -p angular -i CHANGELOG.md -s" ""
            { st2 with fs := updatePackagesVersion (resolvedVersion fs0.rootVersion env) (packagesOf fs0) st2.fs,
                       versionUpdated := true } with ⟨rc, st4⟩
        rw [hC] at h2 h3 hC4
        have hst4 : st4 = addEffect
            { st2 with fs := updatePackagesVersion (resolvedVersion fs0.rootVersion env) (packagesOf fs0) st2.fs,
                       versionUpdated := true }
            ("conventional-changelog -p angular -i CHANGELOG.md -s", "") := hC4
        rcases rc with e | out
        · rw [stepOk_error] at h2; cases h2
        simp only [stepOk_ok] at h2 h3
        rw [h1] at h2
        rw [if_pos (by decide)] at h2
        have hMain : mainRun env fs0 = (Except.ok MainOutcome.earlyExit,
            St.mk (FS.mk st4.fs.rootVersion st4.fs.pkgs env.generatedChangelog)
              st4.versionUpdated st4.effects) := by
          unfold mainRun
          rw [hB]
          simp only [stepOk_ok]
          rw [if_neg (by decide)]
          rw [hS]
          dsimp only
          rw [if_neg (by decide)]
          rw [hv]
          rw [if_neg (by decide)]
          rw [hcr]
          rw [if_neg (by decide)]
          rw [hC]
          simp only [stepOk_ok]
          rw [h1]
          rw [if_pos (by decide)]
        rw [hMain, mainWithCatch, hMain]
        refine ⟨rfl, ?_, ?_, ?_⟩
        · rw [hst4]
          rfl
        · rw [hst4]
          show ∀ p ∈ (updatePackagesVersion (resolvedVersion fs0.rootVersion env)
              (packagesOf fs0) st2.fs).pkgs,
            p.name ∈ packagesOf fs0 → p.version = resolvedVersion fs0.rootVersion env
          exact updatePackagesVersion_pkgs_mem _ _ _
        · rw [hst4]
          rw [show st2 = (phaseSync env st1).2 from by rw [hS]]
          rw [phaseSync_true_state env st1 (by rw [hS])]
          rw [hst1']
          simp [addEffect, initSt, changelogStopEffects]

/-! ## C10 — scope of the dry-run flag -/

theorem runIfNotDry_dry (env : Env) (c : String) (st : St) (hd : env.dry = true) :
    runIfNotDry env c st = (.ok "", st) := by
  unfold runIfNotDry
  rw [hd, if_pos rfl]

theorem commitIfDirty_dry (env : Env) (v d : String) (st : St) (hd : env.dry = true) :
    commitIfDirty env v d st = (.ok "", st) := by
  unfold commitIfDirty
  rw [runIfNotDry_dry env _ st hd]
  split
  · rfl
  · dsimp only
    rw [runIfNotDry_dry env _ st hd]

theorem publishPackage_state (env : Env) (n : String) (flags : List String) (st : St) :
    (publishPackage env n flags st).2 = addEffect st (publishEffect flags n) := by
  unfold publishPackage runCmd publishEffect
  cases env.exec ("pnpm publish --access publish " ++ String.intercalate " " flags)
      ("../packages/" ++ n) with
  | error m =>
    dsimp only
    split <;> rfl
  | ok out => rfl

theorem publishPackagesGo_ok (env : Env) (flags : List String) :
    ∀ (names : List String) (st : St),
    (publishPackagesGo env flags names st).1 = .ok () →
    (publishPackagesGo env flags names st).2 =
      { st with effects := st.effects ++ names.map (publishEffect flags) } := by
  intro names
  induction names with
  | nil =>
    intro st _
    simp [publishPackagesGo]
  | cons n ns ih =>
    intro st h
    unfold publishPackagesGo at h ⊢
    have hps := publishPackage_state env n flags st
    rcases hp : publishPackage env n flags st with ⟨rp, st1⟩
    rw [hp] at h hps
    have hst1 : st1 = addEffect st (publishEffect flags n) := hps
    rcases rp with e | u
    · cases h
    dsimp only at h ⊢
    rw [ih st1 h, hst1]
    simp [addEffect, List.append_assoc]

theorem publishGitHubReleaseM_dry (env : Env) (v : String) (st : St) (hd : env.dry = true)
    (hok : (publishGitHubReleaseM env v st).1 = .ok ()) :
    (publishGitHubReleaseM env v st).2 = addEffect st ("git remote get-url origin", "") := by
  unfold publishGitHubReleaseM runCmd at hok ⊢
  cases hx : env.exec "git remote get-url origin" "" with
  | error m =>
    try rw [hx] at hok
    try rw [hx]
    try cases hok
  | ok out =>
    try rw [hx] at hok
    try rw [hx]
    dsimp only [addEffect] at hok ⊢
    cases hp : parseRepoUrl (trimL out.data) with
    | none =>
      try rw [hp] at hok
      try rw [hp]
      try cases hok
    | some ow =>
      try rw [hp] at hok
      try rw [hp]
      cases hn : extractNotes v st.fs.changelog with
      | none =>
        try rw [hn] at hok
        try rw [hn]
        try cases hok
      | some notes =>
        try rw [hn] at hok
        try rw [hn]
        dsimp only at hok ⊢
        rw [hd]
        rw [if_pos rfl]

/-- **C10.** In a completed dry run, only `git add`/`commit`/`tag`/`push` and
the GitHub release creation (octokit call or browser fallback) are replaced by
logging: the recorded trace is exactly the changelog regeneration, lockfile
update, `git diff`, the repeated `git remote` lookup, and the full package
build, followed by one `pnpm publish --access publish --dry-run --no-git-checks`
per non-private workspace package — so the changelog is regenerated for real
and every package is published with the dry-run flags rather than skipped. -/
theorem c10_dry_run_scope (env : Env) (fs0 : FS)
    (hd : env.dry = true)
    (hc : (mainRun env fs0).1 = .ok .completed) :
    (mainRun env fs0).2.effects = dryRunEffects ++ (packagesOf fs0).map dryPublishEffect ∧
    (mainRun env fs0).2.fs.changelog = env.generatedChangelog ∧
    (∀ e ∈ (mainRun env fs0).2.effects,
      isGitMutating e.1 = false ∧ isReleaseRemoteEffect e.1 = false) ∧
    (("conventional-changelog -p angular -i CHANGELOG.md -s", "") ∈ (mainRun env fs0).2.effects ∧
     ("pnpm install --prefer-offline", "") ∈ (mainRun env fs0).2.effects ∧
     ("pnpm build", "") ∈ (mainRun env fs0).2.effects) ∧
    (∀ n ∈ packagesOf fs0, dryPublishEffect n ∈ (mainRun env fs0).2.effects) := by
  have hst1 := phaseBranch_state env (initSt fs0)
  unfold mainRun at hc
  rcases hB : phaseBranch env (initSt fs0) with ⟨rb, st1⟩
  rw [hB] at hc hst1
  have hst1' : st1 = addEffect (initSt fs0) ("git branch --show-current", "") := hst1
  rcases rb with e | isMain
  · rw [stepOk_error] at hc; cases hc
  simp only [stepOk_ok] at hc
  cases isMain with
  | false =>
    have hc' : MainOutcome.earlyExit = MainOutcome.completed := Except.ok.inj hc
    cases hc'
  | true =>
    rw [if_neg (by decide)] at hc
    have hpre := phaseSync_preserve env st1
    rcases hS : phaseSync env st1 with ⟨bs, st2⟩
    rw [hS] at hc hpre
    dsimp only at hc
    cases bs with
    | false =>
      have hc' : MainOutcome.earlyExit = MainOutcome.completed := Except.ok.inj hc
      cases hc'
    | true =>
      rw [if_neg (by decide)] at hc
      have hst2' : st2 = { st1 with effects := st1.effects ++ [("git remote get-url origin", ""), ("git rev-parse HEAD", "")] } := by
        have h0 := phaseSync_true_state env st1 (by rw [hS])
        rw [hS] at h0
        exact h0
      by_cases hv : semverValid (resolvedVersion fs0.rootVersion env) = true
      case neg =>
        rw [Bool.not_eq_true] at hv
        rw [hv] at hc
        rw [if_pos (by decide)] at hc
        cases hc
      case pos =>
      rw [hv] at hc
      rw [if_neg (by decide)] at hc
      cases hcr : env.confirmRelease with
      | false =>
        rw [hcr] at hc
        rw [if_pos (by decide)] at hc
        have hc' : MainOutcome.earlyExit = MainOutcome.completed := Except.ok.inj hc
        cases hc'
      | true =>
        rw [hcr] at hc
        rw [if_neg (by decide)] at hc
        have hC4 := runCmd_state env "conventional-changelog -p angular -i CHANGELOG.md -s" ""
          { st2 with fs := updatePackagesVersion (resolvedVersion fs0.rootVersion env) (packagesOf fs0) st2.fs,
                     versionUpdated := true }
        rcases hC : runCmd env "conventional-changelog -p angular -i CHANGELOG.md -s" ""
            { st2 with fs := updatePackagesVersion (resolvedVersion fs0.rootVersion env) (packagesOf fs0) st2.fs,
                       versionUpdated := true } with ⟨rc, st4⟩
        rw [hC] at hc hC4
        have hst4 : st4 = addEffect
            { st2 with fs := updatePackagesVersion (resolvedVersion fs0.rootVersion env) (packagesOf fs0) st2.fs,
                       versionUpdated := true }
            ("conventional-changelog -p angular -i CHANGELOG.md -s", "") := hC4
        rcases rc with e | out
        · rw [stepOk_error] at hc; cases hc
        simp only [stepOk_ok] at hc
        cases hcg : env.changelogLooksGood with
        | false =>
          rw [hcg] at hc
          rw [if_pos (by decide)] at hc
          have hc' : MainOutcome.earlyExit = MainOutcome.completed := Except.ok.inj hc
          cases hc'
        | true =>
        rw [hcg] at hc
        rw [if_neg (by decide)] at hc
        have hI4 := runCmd_state env "pnpm install --prefer-offline" ""
          (St.mk (FS.mk st4.fs.rootVersion st4.fs.pkgs env.generatedChangelog)
            st4.versionUpdated st4.effects)
        rcases hI : runCmd env "pnpm install --prefer-offline" ""
            (St.mk (FS.mk st4.fs.rootVersion st4.fs.pkgs env.generatedChangelog)
              st4.versionUpdated st4.effects) with ⟨ri, st5⟩
        rw [hI] at hc hI4
        have hst5 : st5 = addEffect
            (St.mk (FS.mk st4.fs.rootVersion st4.fs.pkgs env.generatedChangelog)
              st4.versionUpdated st4.effects)
            ("pnpm install --prefer-offline", "") := hI4
        rcases ri with e | oi
        · rw [stepOk_error] at hc; cases hc
        simp only [stepOk_ok] at hc
        have hD4 := runCmd_state env "git diff" "" st5
        rcases hD : runCmd env "git diff" "" st5 with ⟨rd, st6⟩
        rw [hD] at hc hD4
        have hst6 : st6 = addEffect st5 ("git diff", "") := hD4
        rcases rd with e | d
        · rw [stepOk_error] at hc; cases hc
        simp only [stepOk_ok] at hc
        rw [commitIfDirty_dry env _ d st6 hd] at hc
        simp only [stepOk_ok] at hc
        rw [runIfNotDry_dry env _ st6 hd] at hc
        simp only [stepOk_ok] at hc
        rw [runIfNotDry_dry env _ st6 hd] at hc
        simp only [stepOk_ok] at hc
        rw [runIfNotDry_dry env _ st6 hd] at hc
        simp only [stepOk_ok] at hc
        rcases hG : publishGitHubReleaseM env (resolvedVersion fs0.rootVersion env) st6 with ⟨rg, st7⟩
        rw [hG] at hc
        rcases rg with e | u
        · rw [stepOk_error] at hc; cases hc
        simp only [stepOk_ok] at hc
        have hst7 : st7 = addEffect st6 ("git remote get-url origin", "") := by
          have := publishGitHubReleaseM_dry env (resolvedVersion fs0.rootVersion env) st6 hd
            (by rw [hG])
          rw [hG] at this
          exact this
        have hB4 := runCmd_state env "pnpm build" "" st7
        rcases hBld : runCmd env "pnpm build" "" st7 with ⟨rbd, st8⟩
        rw [hBld] at hc hB4
        have hst8 : st8 = addEffect st7 ("pnpm build", "") := hB4
        rcases rbd with e | ob
        · rw [stepOk_error] at hc; cases hc
        simp only [stepOk_ok] at hc
        unfold publishPackagesM at hc
        rw [hd, if_pos rfl] at hc
        rcases hPP : publishPackagesGo env ["--dry-run", "--no-git-checks"] (packagesOf fs0) st8
          with ⟨rpp, stF⟩
        rw [hPP] at hc
        rcases rpp with e | uu
        · rw [stepOk_error] at hc; cases hc
        have hstF : stF = St.mk st8.fs st8.versionUpdated (st8.effects ++ (packagesOf fs0).map (publishEffect ["--dry-run", "--no-git-checks"])) := by
          have := publishPackagesGo_ok env ["--dry-run", "--no-git-checks"] (packagesOf fs0) st8
            (by rw [hPP])
          rw [hPP] at this
          exact this
        have hpe : publishEffect ["--dry-run", "--no-git-checks"] = dryPublishEffect :=
          funext fun n => rfl
        rw [hpe] at hstF
        have hMain : mainRun env fs0 = (.ok .completed, stF) := by
          unfold mainRun
          rw [hB]
          simp only [stepOk_ok]
          rw [if_neg (by decide)]
          rw [hS]
          dsimp only
          rw [if_neg (by decide)]
          rw [hv]
          rw [if_neg (by decide)]
          rw [hcr]
          rw [if_neg (by decide)]
          rw [hC]
          simp only [stepOk_ok]
          rw [hcg]
          rw [if_neg (by decide)]
          rw [hI]
          simp only [stepOk_ok]
          rw [hD]
          simp only [stepOk_ok]
          rw [commitIfDirty_dry env _ d st6 hd]
          simp only [stepOk_ok]
          rw [runIfNotDry_dry env _ st6 hd]
          simp only [stepOk_ok]
          rw [runIfNotDry_dry env _ st6 hd]
          simp only [stepOk_ok]
          rw [runIfNotDry_dry env _ st6 hd]
          simp only [stepOk_ok]
          rw [hG]
          simp only [stepOk_ok]
          rw [hBld]
          simp only [stepOk_ok]
          unfold publishPackagesM
          rw [hd, if_pos rfl]
          rw [hPP]
          rfl
        have e1 : (mainRun env fs0).2.effects =
            dryRunEffects ++ (packagesOf fs0).map dryPublishEffect := by
          rw [hMain]
          show stF.effects = _
          rw [hstF, hst8, hst7, hst6, hst5, hst4, hst2', hst1']
          simp [addEffect, initSt, dryRunEffects, List.append_assoc]
        refine ⟨e1, ?_, ?_, ?_, ?_⟩
        · rw [hMain]
          show stF.fs.changelog = _
          rw [hstF, hst8, hst7, hst6, hst5]
          rfl
        · intro e he
          rw [e1] at he
          rcases List.mem_append.mp he with h | h
          · simp only [dryRunEffects, List.mem_cons, List.not_mem_nil, or_false] at h
            rcases h with rfl | rfl | rfl | rfl | rfl | rfl | rfl | rfl <;> exact ⟨by decide, by decide⟩
          · obtain ⟨n, _, rfl⟩ := List.mem_map.mp h
            refine ⟨?_, ?_⟩
            · show isGitMutating "pnpm publish --access publish --dry-run --no-git-checks" = false
              decide
            · show isReleaseRemoteEffect "pnpm publish --access publish --dry-run --no-git-checks" = false
              decide
        · rw [e1]
          refine ⟨?_, ?_, ?_⟩ <;> exact List.mem_append.mpr (Or.inl (by simp [dryRunEffects]))
        · intro n hn
          rw [e1]
          exact List.mem_append.mpr (Or.inr (List.mem_map_of_mem _ hn))

/-- Witness for C10: the concrete dry run completes and its trace matches. -/
theorem c10_dry_run_scope_witness :
    c10Env.dry = true ∧
    (mainRun c10Env wFS).1 = .ok .completed ∧
    (mainRun c10Env wFS).2.effects = dryRunEffects ++ (packagesOf wFS).map dryPublishEffect ∧
    (∀ n ∈ packagesOf wFS, dryPublishEffect n ∈ (mainRun c10Env wFS).2.effects) :=
  ⟨rfl, rfl, (c10_dry_run_scope c10Env wFS rfl rfl).1,
    (c10_dry_run_scope c10Env wFS rfl rfl).2.2.2.2⟩

/-- Witness for C9: one icon, react target, cjs format; both index files are in
the write list, `index.d.ts` in esm form. -/
theorem c9_index_dts_always_esm_witness :
    (outputDir "react" "cjs" ++ "/index.d.ts",
      exportAll [⟨"<svg/>", "Vue"⟩] "esm") ∈ (build c9Env "react" "cjs").1.toOption.getD [] ∧
    (outputDir "react" "cjs" ++ "/index.js",
      exportAll [⟨"<svg/>", "Vue"⟩] "cjs") ∈ (build c9Env "react" "cjs").1.toOption.getD [] :=
  c9_index_dts_always_esm c9Env "react" "cjs" [⟨"<svg/>", "Vue"⟩]
    ((build c9Env "react" "cjs").1.toOption.getD []) rfl rfl

/-! ## C4 — validation errors of the release workflow -/

/-- C4 counterexample: when the regenerated changelog lacks a section for the
target version, the failure is NOT an explicit descriptive error raised before
any destructive action: the run ends in an implicit TypeError (destructuring
the null result of the changelog regex), thrown only after `git tag` and
`git push` have already executed. -/
theorem c4_counterexample :
    (mainRun c4CexEnv wFS).1 =
      .error (.typeErr "null is not iterable (destructuring the changelog exec)") ∧
    (∀ m, (mainRun c4CexEnv wFS).1 ≠ .error (.explicitErr m)) ∧
    ("git tag v2.0.0", "") ∈ (mainRun c4CexEnv wFS).2.effects ∧
    ("git push", "") ∈ (mainRun c4CexEnv wFS).2.effects := by
  refine ⟨rfl, ?_, by decide, by decide⟩
  intro m h
  rw [show (mainRun c4CexEnv wFS).1 =
    .error (.typeErr "null is not iterable (destructuring the changelog exec)") from rfl] at h
  simp at h

/-- **C4 (amended).** Of the two validation errors, only the invalid-version
one behaves as claimed: an invalid resolved target version leaves every
manifest untouched (`fs` unchanged, rollback flag clear, run not completed),
and on the main branch in sync with the remote it is raised as the explicit
descriptive error `Invalid target version: …`.  A changelog lacking a section
for the target version is not checked explicitly: `publishGitHubRelease`
destructures the null regex result, so the run throws an implicit TypeError —
and only at the release step, after commit, tag and push already happened. -/
theorem c4_validation_errors :
    (∀ (env : Env) (fs0 : FS), semverValid (resolvedVersion fs0.rootVersion env) = false →
      (mainRun env fs0).2.fs = fs0 ∧
      (mainRun env fs0).2.versionUpdated = false ∧
      (mainRun env fs0).1 ≠ .ok .completed) ∧
    (∀ (env : Env) (fs0 : FS),
      (phaseBranch env (initSt fs0)).1 = .ok true →
      (phaseSync env (phaseBranch env (initSt fs0)).2).1 = true →
      semverValid (resolvedVersion fs0.rootVersion env) = false →
      (mainRun env fs0).1 = .error (.explicitErr
        ("Invalid target version: " ++ resolvedVersion fs0.rootVersion env))) ∧
    (∀ (env : Env) (v : String) (st : St) (out : String) (ow : String × String),
      env.exec "git remote get-url origin" "" = .ok out →
      parseRepoUrl (trimL out.data) = some ow →
      extractNotes v st.fs.changelog = none →
      publishGitHubReleaseM env v st =
        (.error (.typeErr "null is not iterable (destructuring the changelog exec)"),
         addEffect st ("git remote get-url origin", ""))) := by
  refine ⟨?_, ?_, ?_⟩
  · intro env fs0 hv
    have hst1 := phaseBranch_state env (initSt fs0)
    unfold mainRun
    rcases hB : phaseBranch env (initSt fs0) with ⟨rb, st1⟩
    rw [hB] at hst1
    have hst1' : st1 = addEffect (initSt fs0) ("git branch --show-current", "") := hst1
    have hfs1 : st1.fs = fs0 := by rw [hst1']; rfl
    have hvu1 : st1.versionUpdated = false := by rw [hst1']; rfl
    rcases rb with e | isMain
    · rw [stepOk_error]
      exact ⟨hfs1, hvu1, by simp⟩
    simp only [stepOk_ok]
    cases isMain with
    | false =>
      rw [if_pos (by decide)]
      exact ⟨hfs1, hvu1, by simp⟩
    | true =>
      rw [if_neg (by decide)]
      have hpre := phaseSync_preserve env st1
      rcases hS : phaseSync env st1 with ⟨bs, st2⟩
      rw [hS] at hpre
      have hpre' : st2.fs = st1.fs ∧ st2.versionUpdated = st1.versionUpdated := hpre
      have hfs2 : st2.fs = fs0 := by rw [hpre'.1, hfs1]
      have hvu2 : st2.versionUpdated = false := by rw [hpre'.2, hvu1]
      dsimp only
      cases bs with
      | false =>
        rw [if_pos (by decide)]
        exact ⟨hfs2, hvu2, by simp⟩
      | true =>
        rw [if_neg (by decide)]
        rw [hv]
        rw [if_pos (by decide)]
        exact ⟨hfs2, hvu2, by simp⟩
  · intro env fs0 hb hs hv
    rcases hB : phaseBranch env (initSt fs0) with ⟨rb, st1⟩
    rw [hB] at hb hs
    have hrb : rb = .ok true := hb
    subst hrb
    dsimp only at hs
    rcases hS : phaseSync env st1 with ⟨bs, st2⟩
    rw [hS] at hs
    have hbs : bs = true := hs
    subst hbs
    unfold mainRun
    rw [hB]
    simp only [stepOk_ok]
    rw [if_neg (by decide)]
    rw [hS]
    dsimp only
    rw [if_neg (by decide)]
    rw [hv]
    rw [if_pos (by decide)]
  · intro env v st out ow hx hp hn
    unfold publishGitHubReleaseM runCmd
    rw [hx]
    dsimp only [addEffect]
    rw [hp]
    rw [hn]

/-- Witness for C4: an invalid explicit version aborts with the explicit error
and no file write; a changelog without the target section makes
`publishGitHubRelease` throw the implicit TypeError. -/
theorem c4_validation_errors_witness :
    ((mainRun c4InvEnv wFS).2.fs = wFS ∧
     (mainRun c4InvEnv wFS).2.versionUpdated = false ∧
     (mainRun c4InvEnv wFS).1 ≠ .ok .completed) ∧
    (mainRun c4InvEnv wFS).1 =
      .error (.explicitErr "Invalid target version: not-a-version") ∧
    publishGitHubReleaseM c4CexEnv "2.0.0" (initSt (FS.mk "2.0.0" wFS.pkgs "## junk\n")) =
      (.error (.typeErr "null is not iterable (destructuring the changelog exec)"),
       addEffect (initSt (FS.mk "2.0.0" wFS.pkgs "## junk\n"))
         ("git remote get-url origin", "")) :=
  ⟨c4_validation_errors.1 c4InvEnv wFS rfl,
   c4_validation_errors.2.1 c4InvEnv wFS rfl rfl rfl,
   c4_validation_errors.2.2 c4CexEnv "2.0.0" (initSt (FS.mk "2.0.0" wFS.pkgs "## junk\n"))
     "https://github.com/985563349/skill-icons.git\n" ("985563349", "skill-icons") rfl rfl rfl⟩

/-! ## C3 — the vue size rewrite -/

theorem replaceSizeAux_noSvg (attr : List Char) :
    ∀ (fuel : Nat) (l : List Char), noSvgStart l = true → replaceSizeAux attr fuel l = l := by
  intro fuel
  induction fuel with
  | zero => intro l _; rfl
  | succ n ih =>
    intro l h
    cases l with
    | nil => rfl
    | cons c cs =>
      simp only [noSvgStart, Bool.and_eq_true, Bool.not_eq_true'] at h
      simp only [replaceSizeAux]
      rw [h.1]
      rw [if_neg (by decide)]
      rw [ih cs h.2]

/-- C3 counterexample: the substitutions are global (`/g`), so they also hit a
nested `svg` element: its `width="5"` — an attribute of another element the
claim says is untouched — is rewritten to `"1em"` as well. -/
theorem c3_counterexample :
    vueSvgSizeRewrite "<svg width=\"24\" height=\"24\"><svg width=\"5\"/></svg>" =
      "<svg width=\"1em\" height=\"1em\"><svg width=\"1em\"/></svg>" ∧
    containsSeq "width=\"5\"".data
      "<svg width=\"24\" height=\"24\"><svg width=\"5\"/></svg>".data = true ∧
    containsSeq "width=\"5\"".data
      (vueSvgSizeRewrite "<svg width=\"24\" height=\"24\"><svg width=\"5\"/></svg>").data = false :=
  ⟨rfl, by decide, by decide⟩

theorem takeWhileNe_append (stop : Char) :
    ∀ (l r : List Char), l.all (fun c => c ≠ stop) = true →
      takeWhileNe stop (l ++ stop :: r) = l := by
  intro l
  induction l with
  | nil =>
    intro r _
    unfold takeWhileNe
    rw [List.nil_append, List.takeWhile_cons]
    simp
  | cons a l ih =>
    intro r h
    simp only [List.all_cons, Bool.and_eq_true] at h
    unfold takeWhileNe at ih ⊢
    rw [List.cons_append]
    simp only [List.takeWhile_cons]
    rw [h.1, if_pos rfl, ih r h.2]

theorem startsWithL_self_append : ∀ (x y : List Char), startsWithL x (x ++ y) = true := by
  intro x y
  induction x with
  | nil => rfl
  | cons c x ih =>
    show (decide (c = c) && startsWithL x (x ++ y)) = true
    rw [ih]
    simp

theorem startsWithL_append_stop (c : Char) :
    ∀ (pat s r : List Char), pat.all (fun x => x ≠ c) = true →
      startsWithL pat (s ++ c :: r) = startsWithL pat s := by
  intro pat
  induction pat with
  | nil => intro s r _; rfl
  | cons p ps ih =>
    intro s r h
    simp only [List.all_cons, Bool.and_eq_true, decide_eq_true_eq] at h
    cases s with
    | nil =>
      show (decide (p = c) && startsWithL ps r) = false
      rw [decide_eq_false h.1]
      rfl
    | cons a s =>
      show (decide (p = a) && startsWithL ps (s ++ c :: r)) = (decide (p = a) && startsWithL ps s)
      rw [ih s r h.2]

theorem drop_length_takeWhile (p : Char → Bool) (l : List Char) :
    l.drop (l.takeWhile p).length = l.dropWhile p := by
  have h := List.drop_left (l.takeWhile p) (l.dropWhile p)
  rw [List.takeWhile_append_dropWhile] at h
  exact h

theorem noAttrMatchPos_cons_nonws (attr : List Char) (c : Char) (l : List Char)
    (hc : isJsWs c = false) (hl : noAttrMatchPos attr l = true) :
    noAttrMatchPos attr (c :: l) = true := by
  simp only [noAttrMatchPos, hc, Bool.false_and, Bool.not_false, Bool.true_and]
  exact hl

theorem noAttrMatchPos_append_nonws (attr : List Char) :
    ∀ (w l : List Char), w.all (fun ch => !isJsWs ch) = true →
      noAttrMatchPos attr l = true → noAttrMatchPos attr (w ++ l) = true := by
  intro w
  induction w with
  | nil => intro l _ hl; exact hl
  | cons c w ih =>
    intro l hw hl
    simp only [List.all_cons, Bool.and_eq_true, Bool.not_eq_true'] at hw
    rw [List.cons_append]
    exact noAttrMatchPos_cons_nonws attr c (w ++ l) hw.1 (ih l hw.2 hl)

theorem sizeTail_none_at (attr : List Char) (hane : attr ≠ [])
    (hattr : attr.all (fun ch => !isJsWs ch && ch ≠ '>') = true)
    (c : Char) (u body : List Char)
    (hu : u.all (fun ch => ch ≠ '>') = true)
    (hpos : (isJsWs c && startsWithL (attr ++ ['=', '"']) ((c :: u).dropWhile isJsWs)) = false) :
    sizeTail attr (c :: (u ++ '>' :: body)) = none := by
  unfold sizeTail
  dsimp only
  cases hc : isJsWs c with
  | false =>
    rw [List.takeWhile_cons, hc]
    simp
  | true =>
    rw [hc] at hpos
    simp only [Bool.true_and] at hpos
    rw [List.dropWhile_cons, hc, if_pos rfl] at hpos
    have hsw : startsWithL (attr ++ ['=', '"']) ((u ++ '>' :: body).dropWhile isJsWs) = false := by
      rw [List.dropWhile_append]
      have hpat : (attr ++ ['=', '"']).all (fun x => x ≠ '>') = true := by
        rw [List.all_append, Bool.and_eq_true]
        refine ⟨?_, by decide⟩
        rw [List.all_eq_true] at hattr ⊢
        intro x hx
        have := hattr x hx
        simp only [Bool.and_eq_true] at this
        exact this.2
      cases hde : (u.dropWhile isJsWs).isEmpty with
      | true =>
        rw [if_pos rfl]
        rw [List.dropWhile_cons]
        rw [show isJsWs '>' = false from rfl]
        rw [if_neg (by simp)]
        cases attr with
        | nil => exact absurd rfl hane
        | cons a as =>
          show (decide (a = '>') && startsWithL (as ++ ['=', '"']) body) = false
          have ha : a ≠ '>' := by
            simp only [List.all_cons, Bool.and_eq_true, decide_eq_true_eq] at hattr
            exact hattr.1.2
          rw [decide_eq_false ha]
          rfl
      | false =>
        rw [if_neg (by simp [hde])]
        rw [startsWithL_append_stop '>' _ _ body hpat]
        exact hpos
    rw [List.takeWhile_cons, hc, if_pos rfl]
    rw [if_neg (by simp)]
    rw [List.length_cons]
    have hdrop : (c :: (u ++ '>' :: body)).drop (((u ++ '>' :: body).takeWhile isJsWs).length + 1)
        = (u ++ '>' :: body).dropWhile isJsWs := by
      show (u ++ '>' :: body).drop ((u ++ '>' :: body).takeWhile isJsWs).length = _
      exact drop_length_takeWhile isJsWs _
    rw [hdrop]
    simp [hsw]

theorem sizeG1Scan_none (attr : List Char) (hane : attr ≠ [])
    (hattr : attr.all (fun ch => !isJsWs ch && ch ≠ '>') = true) :
    ∀ (u : List Char), u.all (fun ch => ch ≠ '>') = true →
      noAttrMatchPos attr u = true →
      ∀ (acc body : List Char), sizeG1Scan attr acc (u ++ '>' :: body) = none := by
  intro u
  induction u with
  | nil =>
    intro _ _ acc body
    rw [List.nil_append]
    simp only [sizeG1Scan]
    rw [if_pos (by trivial)]
    have ht : sizeTail attr ('>' :: body) = none := by
      unfold sizeTail
      dsimp only
      rw [List.takeWhile_cons]
      rw [show isJsWs '>' = false from rfl]
      simp
    rw [ht]
    rfl
  | cons c u ih =>
    intro hgt hposl acc body
    simp only [List.all_cons, Bool.and_eq_true, decide_eq_true_eq] at hgt
    simp only [noAttrMatchPos, Bool.and_eq_true, Bool.not_eq_true'] at hposl
    rw [List.cons_append]
    simp only [sizeG1Scan]
    rw [if_neg hgt.1]
    rw [ih hgt.2 hposl.2 (c :: acc) body]
    rw [sizeTail_none_at attr hane hattr c u body hgt.2 hposl.1]
    rfl

theorem sizeG1Scan_found (attr : List Char) (hane : attr ≠ [])
    (hattr : attr.all (fun ch => !isJsWs ch && ch ≠ '>') = true)
    (v q : List Char)
    (hvq2 : v.all (fun ch => ch ≠ '"') = true)
    (hvgt : v.all (fun ch => ch ≠ '>') = true)
    (hq : q.all (fun ch => ch ≠ '>') = true)
    (hvq : noAttrMatchPos attr (v ++ '"' :: q) = true) :
    ∀ (p : List Char), p.all (fun ch => ch ≠ '>') = true →
      ∀ (acc body : List Char),
      sizeG1Scan attr acc (p ++ ' ' :: (attr ++ '=' :: '"' :: (v ++ '"' :: q)) ++ '>' :: body)
        = some (acc.reverse ++ p, q, body) := by
  intro p
  induction p with
  | nil =>
    intro _ acc body
    rw [List.nil_append]
    have hall : (attr ++ '=' :: '"' :: (v ++ '"' :: q)).all (fun ch => ch ≠ '>') = true := by
      rw [List.all_append, Bool.and_eq_true]
      refine ⟨?_, ?_⟩
      · rw [List.all_eq_true] at hattr ⊢
        intro x hx
        have := hattr x hx
        simp only [Bool.and_eq_true] at this
        exact this.2
      · simp only [List.all_cons, Bool.and_eq_true]
        refine ⟨by decide, by decide, ?_⟩
        rw [List.all_append, Bool.and_eq_true]
        refine ⟨hvgt, ?_⟩
        simp only [List.all_cons, Bool.and_eq_true]
        exact ⟨by decide, hq⟩
    have hposU : noAttrMatchPos attr (attr ++ '=' :: '"' :: (v ++ '"' :: q)) = true := by
      have hmid : noAttrMatchPos attr ('=' :: '"' :: (v ++ '"' :: q)) = true := by
        refine noAttrMatchPos_cons_nonws attr '=' _ (by decide) ?_
        exact noAttrMatchPos_cons_nonws attr '"' _ (by decide) hvq
      refine noAttrMatchPos_append_nonws attr attr _ ?_ hmid
      rw [List.all_eq_true] at hattr ⊢
      intro x hx
      have := hattr x hx
      simp only [Bool.and_eq_true] at this
      exact this.1
    have hrec := sizeG1Scan_none attr hane hattr (attr ++ '=' :: '"' :: (v ++ '"' :: q))
      hall hposU (' ' :: acc) body
    have ht : sizeTail attr (' ' :: (attr ++ '=' :: '"' :: (v ++ '"' :: q)) ++ '>' :: body)
        = some (q, body) := by
      obtain ⟨a, as, rfl⟩ : ∃ a as, attr = a :: as := by
        cases attr with
        | nil => exact absurd rfl hane
        | cons a as => exact ⟨a, as, rfl⟩
      have ha : isJsWs a = false := by
        simp only [List.all_cons, Bool.and_eq_true, Bool.not_eq_true'] at hattr
        exact hattr.1.1
      have hm0 : ((' ' :: (a :: as ++ '=' :: '"' :: (v ++ '"' :: q))) ++ '>' :: body : List Char)
          = ' ' :: ((a :: as ++ '=' :: '"' :: (v ++ '"' :: q)) ++ '>' :: body) := rfl
      rw [hm0]
      unfold sizeTail
      dsimp only
      have hws : ((' ' :: ((a :: as ++ '=' :: '"' :: (v ++ '"' :: q)) ++ '>' :: body)) :
          List Char).takeWhile isJsWs = [' '] := by
        rw [List.takeWhile_cons]
        rw [show isJsWs ' ' = true from rfl]
        rw [if_pos rfl]
        rw [List.cons_append, List.cons_append, List.takeWhile_cons, ha]
        rw [if_neg (by simp)]
      rw [hws]
      rw [if_neg (by simp)]
      have hm1 : (' ' :: ((a :: as ++ '=' :: '"' :: (v ++ '"' :: q)) ++ '>' :: body)).drop
          ([' '] : List Char).length = (a :: as ++ '=' :: '"' :: (v ++ '"' :: q)) ++ '>' :: body := rfl
      rw [hm1]
      have hshape : (a :: as ++ '=' :: '"' :: (v ++ '"' :: q)) ++ '>' :: body
          = ((a :: as) ++ ['=', '"']) ++ (v ++ '"' :: (q ++ '>' :: body)) := by
        simp [List.append_assoc]
      rw [hshape]
      rw [startsWithL_self_append]
      rw [if_pos rfl]
      rw [List.drop_left' (show ((a :: as) ++ ['=', '"'] : List Char).length = (a :: as).length + 2 by simp)]
      rw [takeWhileNe_append '"' v (q ++ '>' :: body) hvq2]
      rw [List.drop_left v _]
      simp [takeWhileNe_append '>' q body hq, List.drop_left]
    simp only [sizeG1Scan]
    simp only [List.append_eq]
    rw [if_neg (by trivial)]
    rw [hrec, ht]
    simp
  | cons a p ih =>
    intro hp acc body
    simp only [List.all_cons, Bool.and_eq_true, decide_eq_true_eq] at hp
    rw [List.cons_append]
    simp only [sizeG1Scan]
    simp only [List.append_eq]
    rw [if_neg hp.1]
    rw [ih hp.2 (a :: acc) body]
    simp [List.append_assoc]

theorem replaceSizeAux_root (attr : List Char) (hane : attr ≠ [])
    (hattr : attr.all (fun ch => !isJsWs ch && ch ≠ '>') = true)
    (p v q body : List Char)
    (hp : p.all (fun ch => ch ≠ '>') = true)
    (hvq2 : v.all (fun ch => ch ≠ '"') = true)
    (hvgt : v.all (fun ch => ch ≠ '>') = true)
    (hq : q.all (fun ch => ch ≠ '>') = true)
    (hvq : noAttrMatchPos attr (v ++ '"' :: q) = true)
    (hbody : noSvgStart body = true) (fuel : Nat) :
    replaceSizeAux attr (fuel + 1)
        ('<' :: 's' :: 'v' :: 'g' :: (p ++ ' ' :: (attr ++ '=' :: '"' :: (v ++ '"' :: q)) ++ '>' :: body))
      = '<' :: 's' :: 'v' :: 'g' ::
          (p ++ ' ' :: (attr ++ '=' :: '"' :: ('1' :: 'e' :: 'm' :: '"' :: q)) ++ '>' :: body) := by
  simp only [replaceSizeAux]
  rw [if_pos (show startsWithL ['<', 's', 'v', 'g']
    ('<' :: 's' :: 'v' :: 'g' :: (p ++ ' ' :: (attr ++ '=' :: '"' :: (v ++ '"' :: q)) ++ '>' :: body))
    = true by simp [startsWithL])]
  rw [show ('<' :: 's' :: 'v' :: 'g' ::
      (p ++ ' ' :: (attr ++ '=' :: '"' :: (v ++ '"' :: q)) ++ '>' :: body) : List Char).drop 4
    = p ++ ' ' :: (attr ++ '=' :: '"' :: (v ++ '"' :: q)) ++ '>' :: body from rfl]
  rw [sizeG1Scan_found attr hane hattr v q hvq2 hvgt hq hvq p hp [] body]
  simp only [List.reverse_nil, List.nil_append]
  rw [replaceSizeAux_noSvg attr fuel body hbody]
  simp [List.append_assoc]

theorem c3_rewrite_wh (p1 p2 p3 body : String)
    (h1 : p1.data.all (fun ch => ch ≠ '>') = true)
    (h2 : p2.data.all (fun ch => ch ≠ '>') = true)
    (h3 : p3.data.all (fun ch => ch ≠ '>') = true)
    (h4 : noAttrMatchPos "width".data (['2', '4'] ++ '"' :: c3qW p2 p3) = true)
    (h5 : noAttrMatchPos "height".data (['2', '4'] ++ '"' :: p3.data) = true)
    (h6 : noSvgStart body.data = true) :
    vueSvgSizeRewrite ("<svg" ++ p1 ++ " width=\"24\"" ++ p2 ++ " height=\"24\"" ++ p3 ++ ">" ++ body)
      = "<svg" ++ p1 ++ " width=\"1em\"" ++ p2 ++ " height=\"1em\"" ++ p3 ++ ">" ++ body := by
  have e1 : ("<svg" : String).data = ['<', 's', 'v', 'g'] := rfl
  have e2 : (" width=\"24\"" : String).data = [' ', 'w', 'i', 'd', 't', 'h', '=', '"', '2', '4', '"'] := rfl
  have e3 : (" height=\"24\"" : String).data = [' ', 'h', 'e', 'i', 'g', 'h', 't', '=', '"', '2', '4', '"'] := rfl
  have e4 : (">" : String).data = ['>'] := rfl
  have e5 : ("width" : String).data = ['w', 'i', 'd', 't', 'h'] := rfl
  have e6 : ("height" : String).data = ['h', 'e', 'i', 'g', 'h', 't'] := rfl
  have e7 : (" width=\"1em\"" : String).data = [' ', 'w', 'i', 'd', 't', 'h', '=', '"', '1', 'e', 'm', '"'] := rfl
  have e8 : (" height=\"1em\"" : String).data = [' ', 'h', 'e', 'i', 'g', 'h', 't', '=', '"', '1', 'e', 'm', '"'] := rfl
  have hmk : ∀ l : List Char, (String.mk l).data = l := fun _ => rfl
  have h1x : ∀ x ∈ p1.data, ¬x = '>' := by simpa using h1
  have h2x : ∀ x ∈ p2.data, ¬x = '>' := by simpa using h2
  have h3x : ∀ x ∈ p3.data, ¬x = '>' := by simpa using h3
  have hdata1 : ("<svg" ++ p1 ++ " width=\"24\"" ++ p2 ++ " height=\"24\"" ++ p3 ++ ">" ++ body).data
      = '<' :: 's' :: 'v' :: 'g' ::
          (p1.data ++ ' ' :: ("width".data ++ '=' :: '"' :: (['2', '4'] ++ '"' :: c3qW p2 p3)) ++ '>' :: body.data) := by
    simp [str_data_append, e1, e2, e3, e4, e5, c3qW, List.append_assoc]
  have hqW : (c3qW p2 p3).all (fun ch => ch ≠ '>') = true := by
    simp [c3qW, List.all_append, List.all_cons]
    exact ⟨h2x, h3x⟩
  have pass1 : replaceSizeAux "width".data
      ("<svg" ++ p1 ++ " width=\"24\"" ++ p2 ++ " height=\"24\"" ++ p3 ++ ">" ++ body).data.length
      ("<svg" ++ p1 ++ " width=\"24\"" ++ p2 ++ " height=\"24\"" ++ p3 ++ ">" ++ body).data
      = '<' :: 's' :: 'v' :: 'g' ::
          (p1.data ++ ' ' :: ("width".data ++ '=' :: '"' :: ('1' :: 'e' :: 'm' :: '"' :: c3qW p2 p3)) ++ '>' :: body.data) := by
    rw [hdata1, List.length_cons]
    exact replaceSizeAux_root "width".data (by decide) (by decide) p1.data ['2', '4']
      (c3qW p2 p3) body.data h1 (by decide) (by decide) hqW h4 h6 _
  have hdata2 : ('<' :: 's' :: 'v' :: 'g' ::
        (p1.data ++ ' ' :: ("width".data ++ '=' :: '"' :: ('1' :: 'e' :: 'm' :: '"' :: c3qW p2 p3)) ++ '>' :: body.data) : List Char)
      = '<' :: 's' :: 'v' :: 'g' ::
          ((p1.data ++ ' ' :: 'w' :: 'i' :: 'd' :: 't' :: 'h' :: '=' :: '"' :: '1' :: 'e' :: 'm' :: '"' :: p2.data) ++
            ' ' :: ("height".data ++ '=' :: '"' :: (['2', '4'] ++ '"' :: p3.data)) ++ '>' :: body.data) := by
    simp [c3qW, e5, e6, List.append_assoc]
  have hP2 : (p1.data ++ ' ' :: 'w' :: 'i' :: 'd' :: 't' :: 'h' :: '=' :: '"' :: '1' :: 'e' :: 'm' :: '"' :: p2.data).all
      (fun ch => ch ≠ '>') = true := by
    simp [List.all_append, List.all_cons]
    exact ⟨h1x, h2x⟩
  have pass2 : replaceSizeAux "height".data
      ('<' :: 's' :: 'v' :: 'g' ::
        (p1.data ++ ' ' :: ("width".data ++ '=' :: '"' :: ('1' :: 'e' :: 'm' :: '"' :: c3qW p2 p3)) ++ '>' :: body.data) : List Char).length
      ('<' :: 's' :: 'v' :: 'g' ::
        (p1.data ++ ' ' :: ("width".data ++ '=' :: '"' :: ('1' :: 'e' :: 'm' :: '"' :: c3qW p2 p3)) ++ '>' :: body.data))
      = '<' :: 's' :: 'v' :: 'g' ::
          ((p1.data ++ ' ' :: 'w' :: 'i' :: 'd' :: 't' :: 'h' :: '=' :: '"' :: '1' :: 'e' :: 'm' :: '"' :: p2.data) ++
            ' ' :: ("height".data ++ '=' :: '"' :: ('1' :: 'e' :: 'm' :: '"' :: p3.data)) ++ '>' :: body.data) := by
    rw [hdata2, List.length_cons]
    exact replaceSizeAux_root "height".data (by decide) (by decide)
      (p1.data ++ ' ' :: 'w' :: 'i' :: 'd' :: 't' :: 'h' :: '=' :: '"' :: '1' :: 'e' :: 'm' :: '"' :: p2.data)
      ['2', '4'] p3.data body.data hP2 (by decide) (by decide) h3 h5 h6 _
  have hout : ("<svg" ++ p1 ++ " width=\"1em\"" ++ p2 ++ " height=\"1em\"" ++ p3 ++ ">" ++ body).data
      = '<' :: 's' :: 'v' :: 'g' ::
          ((p1.data ++ ' ' :: 'w' :: 'i' :: 'd' :: 't' :: 'h' :: '=' :: '"' :: '1' :: 'e' :: 'm' :: '"' :: p2.data) ++
            ' ' :: ("height".data ++ '=' :: '"' :: ('1' :: 'e' :: 'm' :: '"' :: p3.data)) ++ '>' :: body.data) := by
    simp [str_data_append, e1, e6, e7, e8, e4, List.append_assoc]
  unfold vueSvgSizeRewrite replaceSizeAttr
  rw [pass1]
  rw [hmk]
  rw [pass2]
  rw [← hout, str_mk_data]

theorem c3_rewrite_hw (p1 p2 p3 body : String)
    (h1 : p1.data.all (fun ch => ch ≠ '>') = true)
    (h2 : p2.data.all (fun ch => ch ≠ '>') = true)
    (h3 : p3.data.all (fun ch => ch ≠ '>') = true)
    (h4 : noAttrMatchPos "width".data (['2', '4'] ++ '"' :: p3.data) = true)
    (h5 : noAttrMatchPos "height".data (['2', '4'] ++ '"' :: c3qH p2 p3) = true)
    (h6 : noSvgStart body.data = true) :
    vueSvgSizeRewrite ("<svg" ++ p1 ++ " height=\"24\"" ++ p2 ++ " width=\"24\"" ++ p3 ++ ">" ++ body)
      = "<svg" ++ p1 ++ " height=\"1em\"" ++ p2 ++ " width=\"1em\"" ++ p3 ++ ">" ++ body := by
  have e1 : ("<svg" : String).data = ['<', 's', 'v', 'g'] := rfl
  have e2 : (" width=\"24\"" : String).data = [' ', 'w', 'i', 'd', 't', 'h', '=', '"', '2', '4', '"'] := rfl
  have e3 : (" height=\"24\"" : String).data = [' ', 'h', 'e', 'i', 'g', 'h', 't', '=', '"', '2', '4', '"'] := rfl
  have e4 : (">" : String).data = ['>'] := rfl
  have e5 : ("width" : String).data = ['w', 'i', 'd', 't', 'h'] := rfl
  have e6 : ("height" : String).data = ['h', 'e', 'i', 'g', 'h', 't'] := rfl
  have e7 : (" width=\"1em\"" : String).data = [' ', 'w', 'i', 'd', 't', 'h', '=', '"', '1', 'e', 'm', '"'] := rfl
  have e8 : (" height=\"1em\"" : String).data = [' ', 'h', 'e', 'i', 'g', 'h', 't', '=', '"', '1', 'e', 'm', '"'] := rfl
  have hmk : ∀ l : List Char, (String.mk l).data = l := fun _ => rfl
  have h1x : ∀ x ∈ p1.data, ¬x = '>' := by simpa using h1
  have h2x : ∀ x ∈ p2.data, ¬x = '>' := by simpa using h2
  have h3x : ∀ x ∈ p3.data, ¬x = '>' := by simpa using h3
  have hdata1 : ("<svg" ++ p1 ++ " height=\"24\"" ++ p2 ++ " width=\"24\"" ++ p3 ++ ">" ++ body).data
      = '<' :: 's' :: 'v' :: 'g' ::
          ((p1.data ++ ' ' :: 'h' :: 'e' :: 'i' :: 'g' :: 'h' :: 't' :: '=' :: '"' :: '2' :: '4' :: '"' :: p2.data) ++
            ' ' :: ("width".data ++ '=' :: '"' :: (['2', '4'] ++ '"' :: p3.data)) ++ '>' :: body.data) := by
    simp [str_data_append, e1, e2, e3, e4, e5, List.append_assoc]
  have hPH : (p1.data ++ ' ' :: 'h' :: 'e' :: 'i' :: 'g' :: 'h' :: 't' :: '=' :: '"' :: '2' :: '4' :: '"' :: p2.data).all
      (fun ch => ch ≠ '>') = true := by
    simp [List.all_append, List.all_cons]
    exact ⟨h1x, h2x⟩
  have pass1 : replaceSizeAux "width".data
      ("<svg" ++ p1 ++ " height=\"24\"" ++ p2 ++ " width=\"24\"" ++ p3 ++ ">" ++ body).data.length
      ("<svg" ++ p1 ++ " height=\"24\"" ++ p2 ++ " width=\"24\"" ++ p3 ++ ">" ++ body).data
      = '<' :: 's' :: 'v' :: 'g' ::
          ((p1.data ++ ' ' :: 'h' :: 'e' :: 'i' :: 'g' :: 'h' :: 't' :: '=' :: '"' :: '2' :: '4' :: '"' :: p2.data) ++
            ' ' :: ("width".data ++ '=' :: '"' :: ('1' :: 'e' :: 'm' :: '"' :: p3.data)) ++ '>' :: body.data) := by
    rw [hdata1, List.length_cons]
    exact replaceSizeAux_root "width".data (by decide) (by decide)
      (p1.data ++ ' ' :: 'h' :: 'e' :: 'i' :: 'g' :: 'h' :: 't' :: '=' :: '"' :: '2' :: '4' :: '"' :: p2.data)
      ['2', '4'] p3.data body.data hPH (by decide) (by decide) h3 h4 h6 _
  have hdata2 : ('<' :: 's' :: 'v' :: 'g' ::
        ((p1.data ++ ' ' :: 'h' :: 'e' :: 'i' :: 'g' :: 'h' :: 't' :: '=' :: '"' :: '2' :: '4' :: '"' :: p2.data) ++
          ' ' :: ("width".data ++ '=' :: '"' :: ('1' :: 'e' :: 'm' :: '"' :: p3.data)) ++ '>' :: body.data) : List Char)
      = '<' :: 's' :: 'v' :: 'g' ::
          (p1.data ++ ' ' :: ("height".data ++ '=' :: '"' :: (['2', '4'] ++ '"' :: c3qH p2 p3)) ++ '>' :: body.data) := by
    simp [c3qH, e5, e6, List.append_assoc]
  have hqH : (c3qH p2 p3).all (fun ch => ch ≠ '>') = true := by
    simp [c3qH, List.all_append, List.all_cons]
    exact ⟨h2x, h3x⟩
  have pass2 : replaceSizeAux "height".data
      ('<' :: 's' :: 'v' :: 'g' ::
        ((p1.data ++ ' ' :: 'h' :: 'e' :: 'i' :: 'g' :: 'h' :: 't' :: '=' :: '"' :: '2' :: '4' :: '"' :: p2.data) ++
          ' ' :: ("width".data ++ '=' :: '"' :: ('1' :: 'e' :: 'm' :: '"' :: p3.data)) ++ '>' :: body.data) : List Char).length
      ('<' :: 's' :: 'v' :: 'g' ::
        ((p1.data ++ ' ' :: 'h' :: 'e' :: 'i' :: 'g' :: 'h' :: 't' :: '=' :: '"' :: '2' :: '4' :: '"' :: p2.data) ++
          ' ' :: ("width".data ++ '=' :: '"' :: ('1' :: 'e' :: 'm' :: '"' :: p3.data)) ++ '>' :: body.data))
      = '<' :: 's' :: 'v' :: 'g' ::
          (p1.data ++ ' ' :: ("height".data ++ '=' :: '"' :: ('1' :: 'e' :: 'm' :: '"' :: c3qH p2 p3)) ++ '>' :: body.data) := by
    rw [hdata2, List.length_cons]
    exact replaceSizeAux_root "height".data (by decide) (by decide) p1.data
      ['2', '4'] (c3qH p2 p3) body.data h1 (by decide) (by decide) hqH h5 h6 _
  have hout : ("<svg" ++ p1 ++ " height=\"1em\"" ++ p2 ++ " width=\"1em\"" ++ p3 ++ ">" ++ body).data
      = '<' :: 's' :: 'v' :: 'g' ::
          (p1.data ++ ' ' :: ("height".data ++ '=' :: '"' :: ('1' :: 'e' :: 'm' :: '"' :: c3qH p2 p3)) ++ '>' :: body.data) := by
    simp [str_data_append, c3qH, e1, e6, e7, e8, e4, List.append_assoc]
  unfold vueSvgSizeRewrite replaceSizeAttr
  rw [pass1]
  rw [hmk]
  rw [pass2]
  rw [← hout, str_mk_data]

/-- **C3 (amended).** For every root `svg` tag that carries double-quoted
`width="24"` and `height="24"` attributes — in either order, with arbitrary
further attribute text before, between and after them, provided that text is
free of `>`, that the remainder of the tag after each of the two attributes
carries no second whitespace-preceded `width="`/`height="` occurrence, and
that the body following the tag does not contain the literal `<svg` — the vue
pre-compilation rewrite replaces exactly the two attribute values with
`"1em"` and changes nothing else: all other attributes and the whole body are
emitted verbatim.  The provisos are forced by the regexes themselves: the `/g`
flag rewrites every `svg` tag occurrence, not only the root (see the
counterexample), and a `>` inside an earlier attribute value makes
`([^>]*)` fail to span the tag, silently leaving the dimensions in place. -/
theorem c3_size_rewrite :
    (∀ p1 p2 p3 body : String,
      p1.data.all (fun ch => ch ≠ '>') = true →
      p2.data.all (fun ch => ch ≠ '>') = true →
      p3.data.all (fun ch => ch ≠ '>') = true →
      noAttrMatchPos "width".data (['2', '4'] ++ '"' :: c3qW p2 p3) = true →
      noAttrMatchPos "height".data (['2', '4'] ++ '"' :: p3.data) = true →
      noSvgStart body.data = true →
      vueSvgSizeRewrite ("<svg" ++ p1 ++ " width=\"24\"" ++ p2 ++ " height=\"24\"" ++ p3 ++ ">" ++ body)
        = "<svg" ++ p1 ++ " width=\"1em\"" ++ p2 ++ " height=\"1em\"" ++ p3 ++ ">" ++ body) ∧
    (∀ p1 p2 p3 body : String,
      p1.data.all (fun ch => ch ≠ '>') = true →
      p2.data.all (fun ch => ch ≠ '>') = true →
      p3.data.all (fun ch => ch ≠ '>') = true →
      noAttrMatchPos "width".data (['2', '4'] ++ '"' :: p3.data) = true →
      noAttrMatchPos "height".data (['2', '4'] ++ '"' :: c3qH p2 p3) = true →
      noSvgStart body.data = true →
      vueSvgSizeRewrite ("<svg" ++ p1 ++ " height=\"24\"" ++ p2 ++ " width=\"24\"" ++ p3 ++ ">" ++ body)
        = "<svg" ++ p1 ++ " height=\"1em\"" ++ p2 ++ " width=\"1em\"" ++ p3 ++ ">" ++ body) :=
  ⟨fun p1 p2 p3 body h1 h2 h3 h4 h5 h6 => c3_rewrite_wh p1 p2 p3 body h1 h2 h3 h4 h5 h6,
   fun p1 p2 p3 body h1 h2 h3 h4 h5 h6 => c3_rewrite_hw p1 p2 p3 body h1 h2 h3 h4 h5 h6⟩

/-- Witness for C3: a realistic tag with `xmlns` and `viewBox` kept intact,
the minimal tag `<svg width="24" height="24">` of the spec, and the
reversed-order minimal tag. -/
theorem c3_size_rewrite_witness :
    vueSvgSizeRewrite ("<svg" ++ " xmlns=\"http://www.w3.org/2000/svg\"" ++ " width=\"24\"" ++ "" ++
        " height=\"24\"" ++ " viewBox=\"0 0 24 24\"" ++ ">" ++ "<path d=\"M0 0h24v24H0z\"/></svg>")
      = "<svg" ++ " xmlns=\"http://www.w3.org/2000/svg\"" ++ " width=\"1em\"" ++ "" ++
        " height=\"1em\"" ++ " viewBox=\"0 0 24 24\"" ++ ">" ++ "<path d=\"M0 0h24v24H0z\"/></svg>" ∧
    vueSvgSizeRewrite ("<svg" ++ "" ++ " width=\"24\"" ++ "" ++ " height=\"24\"" ++ "" ++ ">" ++ "")
      = "<svg" ++ "" ++ " width=\"1em\"" ++ "" ++ " height=\"1em\"" ++ "" ++ ">" ++ "" ∧
    vueSvgSizeRewrite ("<svg" ++ "" ++ " height=\"24\"" ++ "" ++ " width=\"24\"" ++ "" ++ ">" ++ "")
      = "<svg" ++ "" ++ " height=\"1em\"" ++ "" ++ " width=\"1em\"" ++ "" ++ ">" ++ "" :=
  ⟨c3_size_rewrite.1 " xmlns=\"http://www.w3.org/2000/svg\"" "" " viewBox=\"0 0 24 24\""
      "<path d=\"M0 0h24v24H0z\"/></svg>"
      (by decide) (by decide) (by decide) (by decide) (by decide) (by decide),
   c3_size_rewrite.1 "" "" "" "" (by decide) (by decide) (by decide) (by decide) (by decide) (by decide),
   c3_size_rewrite.2 "" "" "" "" (by decide) (by decide) (by decide) (by decide) (by decide) (by decide)⟩

/-! ## C7 — the react classic-require post-pass -/

theorem replaceDpAux_noTrigger :
    ∀ (fuel : Nat) (l : List Char), noDpStart l = true → replaceDpAux fuel l = l := by
  intro fuel
  induction fuel with
  | zero => intro l _; rfl
  | succ n ih =>
    intro l h
    cases l with
    | nil => rfl
    | cons c cs =>
      simp only [noDpStart, Bool.and_eq_true, Bool.not_eq_true'] at h
      simp only [replaceDpAux]
      have hm : dpMatchAt (c :: cs) = none := by
        unfold dpMatchAt dpHead
        rw [h.1]
        rw [if_neg (by decide)]
      rw [hm]
      rw [ih cs h.2]

theorem c7_constDefault_match (e : Char) (rest : List Char)
    (h1 : isJsWs e = false)
    (h2 : (e :: rest).all (fun c => c ≠ ';') = true) :
    constDefaultMatchAt ("const _default = ".data ++ (e :: rest) ++ [';']) =
      some (e :: rest, []) := by
  show eqWsGroupSearch ((' ' :: e :: (rest ++ [';'])).takeWhile isJsWs).reverse
      ((' ' :: e :: (rest ++ [';'])).drop
        ((' ' :: e :: (rest ++ [';'])).takeWhile isJsWs).length) = some (e :: rest, [])
  have hA : (' ' :: e :: (rest ++ [';'])).takeWhile isJsWs = [' '] := by
    rw [List.takeWhile_cons]
    rw [show isJsWs ' ' = true from rfl]
    rw [if_pos rfl]
    rw [List.takeWhile_cons]
    rw [h1]
    rw [if_neg (by decide)]
  rw [hA]
  show eqWsGroupSearch [' '] (e :: (rest ++ [';'])) = some (e :: rest, [])
  have hrun : takeWhileNe ';' (e :: (rest ++ [';'])) = e :: rest :=
    takeWhileNe_append ';' (e :: rest) [] h2
  have hdrop : (e :: (rest ++ [';'])).drop (e :: rest).length = [';'] :=
    List.drop_left (e :: rest) [';']
  have hsg : ∀ (c : Char) (g : List Char),
      searchGroupRev (c :: g) [';'] = some ((c :: g).reverse, []) := fun c g => rfl
  unfold eqWsGroupSearch
  rw [hrun]
  simp only [hdrop]
  rcases hg : (e :: rest).reverse with _ | ⟨c, g⟩
  · simp at hg
  · rw [hsg c g]
    have hgr : (c :: g).reverse = e :: rest := by rw [← hg, List.reverse_reverse]
    rw [hgr]

theorem replaceConstDefault_cons (c : Char) (cs g rem : List Char)
    (h : constDefaultMatchAt (c :: cs) = some (g, rem)) :
    replaceConstDefault (c :: cs) = "module.exports = ".data ++ g ++ ';' :: rem := by
  unfold replaceConstDefault
  rw [h]

set_option maxRecDepth 100000 in
/-- **C7.** For a compiled react component in the commonjs shape swc emits —
the `"use strict"` preamble with the `__esModule` marker, the generated
`default`-export property definition, a component body free of further
property-definition triggers, and a trailing `const _default = expr;`
assignment — the classic-require post-pass performs exactly the two claimed
rewrites: the `Object.defineProperty(exports, "default", …);` statement is
stripped (while the `__esModule` one is kept), and the trailing assignment
becomes `module.exports = expr;` with the same expression. -/
theorem c7_react_cjs_post (expr : String)
    (h1 : headNotWs expr.data = true)
    (h2 : expr.data.all (fun c => c ≠ ';') = true)
    (h3 : noDpStart (c7mid.data ++ "const _default = ".data ++ expr.data ++ [';']) = true) :
    reactCjsPost (c7input expr) = c7pre ++ c7mid ++ "module.exports = " ++ expr ++ ";" := by
  unfold reactCjsPost replaceDpAll
  have hlen : (c7input expr).data.length = expr.data.length + 307 := by
    have hsplit : (c7input expr).data
        = c7pre.data ++ (c7dp.data ++ (c7mid.data ++
            ("const _default = ".data ++ (expr.data ++ ";".data)))) := rfl
    rw [hsplit]
    rw [List.length_append, List.length_append, List.length_append,
      List.length_append, List.length_append]
    have e1 : c7pre.data.length = 81 := rfl
    have e2 : c7dp.data.length = 123 := rfl
    have e3 : c7mid.data.length = 85 := rfl
    have e4 : ("const _default = ".data : List Char).length = 17 := rfl
    have e5 : (";".data : List Char).length = 1 := rfl
    rw [e1, e2, e3, e4, e5]
    omega
  rw [hlen]
  have hmain1 : replaceDpAux (expr.data.length + 307) (c7input expr).data
      = c7pre.data ++ replaceDpAux (expr.data.length + 225)
          (c7mid.data ++ "const _default = ".data ++ expr.data ++ [';']) := rfl
  rw [hmain1, replaceDpAux_noTrigger (expr.data.length + 225) _ h3]
  have hmatch : constDefaultMatchAt ("const _default = ".data ++ expr.data ++ [';'])
      = some (expr.data, []) := by
    cases hd : expr.data with
    | nil => rw [hd] at h1; simp [headNotWs] at h1
    | cons e rest =>
      rw [hd] at h2
      have he : isJsWs e = false := by
        rw [hd] at h1
        simpa [headNotWs, Bool.not_eq_true'] using h1
      try rw [hd]
      exact c7_constDefault_match e rest he h2
  have hrc : replaceConstDefault ("const _default = ".data ++ expr.data ++ [';'])
      = "module.exports = ".data ++ expr.data ++ ';' :: [] := by
    have h0 : ("const _default = ".data ++ expr.data ++ [';'])
        = 'c' :: ("onst _default = ".data ++ expr.data ++ [';']) := rfl
    rw [h0] at hmatch
    rw [h0]
    exact replaceConstDefault_cons 'c' _ expr.data [] hmatch
  have hmain2 : replaceConstDefault (c7pre.data ++
        (c7mid.data ++ "const _default = ".data ++ expr.data ++ [';']))
      = c7pre.data ++ c7mid.data ++
          replaceConstDefault ("const _default = ".data ++ expr.data ++ [';']) := rfl
  rw [hmain2, hrc]
  rfl

/-- Witness for C7: the expression `ForwardRef`, the shape swc actually emits
for an svgr component. -/
theorem c7_react_cjs_post_witness :
    headNotWs ("ForwardRef" : String).data = true ∧
    ("ForwardRef" : String).data.all (fun c => c ≠ ';') = true ∧
    noDpStart (c7mid.data ++ "const _default = ".data ++
      ("ForwardRef" : String).data ++ [';']) = true ∧
    reactCjsPost (c7input "ForwardRef") =
      c7pre ++ c7mid ++ "module.exports = " ++ "ForwardRef" ++ ";" :=
  ⟨by decide, by decide, by decide,
    c7_react_cjs_post "ForwardRef" (by decide) (by decide) (by decide)⟩

/-- Witness for C8: the concrete rejected-changelog run stops after the
changelog generation with the bump in place and exit status 0. -/
theorem c8_changelog_rejection_stops_witness :
    c8Env.changelogLooksGood = false ∧
    (mainRun c8Env wFS).1 = .ok .earlyExit ∧
    (mainRun c8Env wFS).2.versionUpdated = true ∧
    ((mainWithCatch c8Env wFS).2 = 0 ∧
     (mainRun c8Env wFS).2.fs.rootVersion = resolvedVersion wFS.rootVersion c8Env ∧
     (∀ p ∈ (mainRun c8Env wFS).2.fs.pkgs, p.name ∈ packagesOf wFS →
       p.version = resolvedVersion wFS.rootVersion c8Env) ∧
     (mainRun c8Env wFS).2.effects = changelogStopEffects) :=
  ⟨rfl, rfl, rfl, c8_changelog_rejection_stops c8Env wFS .earlyExit rfl rfl rfl⟩
